import Mathlib

/-!
Streaming chat client (`src/web_interface/app.js`)

A shallow embedding of the browser script: the page state it mutates
(`state.latestText`, `state.controller`, the text of the status, output and
log elements), the chunk loop of `doStream`, the output accumulator
(`resetOutput` / `appendOutput`), the cancel handler and the submit handler.

JavaScript strings are modelled by `String`.  The text handed to the chunk
loop comes out of a UTF-8 `TextDecoder`, so it is a sequence of Unicode
scalar values; the characters the script inspects (`\r`, `\n`, `data:`,
white space) are all in the basic plane, so working on scalar values instead
of UTF-16 code units does not change where a string is split or sliced.
-/

namespace Crawler

/-! ## Decoded JSON values -/

/-- A number as written in a JSON text: `mantissa * 10 ^ exp10`. -/
structure JNumber where
  mantissa : Int
  exp10 : Int

/-- A value returned by `JSON.parse` / `Response.json()`.  An object keeps its
members in source order; a later member with the same key overrides an earlier
one (see `JVal.member`). -/
inductive JVal where
  | null
  | bool (b : Bool)
  | num (n : JNumber)
  | str (s : String)
  | arr (items : List JVal)
  | obj (members : List (String × JVal))

/-- The value bound to `key` in a member list, the last binding winning, as in
the object `JSON.parse` builds. -/
def lookupMember (key : String) : List (String × JVal) → Option JVal
  | [] => none
  | (k, v) :: rest =>
    match lookupMember key rest with
    | some w => some w
    | none => if k = key then some v else none

/-- The result of the optional-chaining read `v?.key` for a decoded JSON value
and a key that no prototype defines (`content`, `data`): the own member of an
object, `undefined` (here `none`) for everything else. -/
def JVal.member (v : JVal) (key : String) : Option JVal :=
  match v with
  | .obj members => lookupMember key members
  | _ => none

/-! ## Line splitting: `chunk.split(/\r?\n/)` -/

/-- Prepend a character to the first piece of a split. -/
def consHead (c : Char) : List (List Char) → List (List Char)
  | [] => [[c]]
  | l :: ls => (c :: l) :: ls

/-- The pieces of `String.prototype.split` for the pattern `/\r?\n/`: scanning
from the left, a `\n`, together with a `\r` right before it, ends the current
piece; the text after the last terminator is the last piece (the empty text
gives one empty piece). -/
def splitChars : List Char → List (List Char)
  | [] => [[]]
  | [c] => if c = '\n' then [[], []] else [[c]]
  | c :: d :: rest =>
    if c = '\n' then [] :: splitChars (d :: rest)
    else if c = '\r' ∧ d = '\n' then [] :: splitChars rest
    else consHead c (splitChars (d :: rest))

/-- The array `chunk.split(/\r?\n/)`. -/
def splitLines (chunk : String) : List String :=
  (splitChars chunk.data).map String.mk

/-! ## `String.prototype.trim` and `startsWith` -/

/-- The characters `trim` removes: ECMAScript WhiteSpace and LineTerminator. -/
def isTrimChar (c : Char) : Bool :=
  let n := c.toNat
  n = 0x09 || n = 0x0A || n = 0x0B || n = 0x0C || n = 0x0D || n = 0x20 ||
  n = 0xA0 || n = 0x1680 || (0x2000 ≤ n && n ≤ 0x200A) || n = 0x2028 ||
  n = 0x2029 || n = 0x202F || n = 0x205F || n = 0x3000 || n = 0xFEFF

/-- The characters of `s.trim()`. -/
def trimChars (cs : List Char) : List Char :=
  ((cs.dropWhile isTrimChar).reverse.dropWhile isTrimChar).reverse

/-- The text of `s.trim()`. -/
def jsTrim (s : String) : String := String.mk (trimChars s.data)

/-- The test `s.startsWith(p)`. -/
def startsWith (s p : String) : Bool := p.data.isPrefixOf s.data

/-- The text of `s.slice(n)` for `0 ≤ n`. -/
def slice (s : String) (n : Nat) : String := String.mk (s.data.drop n)

/-! ## A model of `JSON.parse`

The grammar is that of ECMA-404, which `JSON.parse` accepts exactly.  String
values are collected as UTF-16 code units, as in JavaScript, and turned into
scalar values at the end; an unpaired surrogate escape, which a `String`
cannot hold, is shown as U+FFFD. -/

/-- JSON white space. -/
def isJsonWs (c : Char) : Bool :=
  c = ' ' || c = '\t' || c = '\n' || c = '\r'

/-- Drop leading JSON white space. -/
def skipWs (cs : List Char) : List Char := cs.dropWhile isJsonWs

/-- The value of a hexadecimal digit. -/
def hexVal (c : Char) : Option Nat :=
  let n := c.toNat
  if 48 ≤ n ∧ n ≤ 57 then some (n - 48)
  else if 97 ≤ n ∧ n ≤ 102 then some (n - 87)
  else if 65 ≤ n ∧ n ≤ 70 then some (n - 55)
  else none

/-- The code unit of a single-character escape. -/
def escapeUnit (c : Char) : Option Nat :=
  if c = '\x22' then some 0x22
  else if c = '\x5c' then some 0x5C
  else if c = '/' then some 0x2F
  else if c = 'b' then some 0x08
  else if c = 'f' then some 0x0C
  else if c = 'n' then some 0x0A
  else if c = 'r' then some 0x0D
  else if c = 't' then some 0x09
  else none

/-- The UTF-16 code units of a scalar value. -/
def utf16Units (c : Char) : List Nat :=
  let n := c.toNat
  if n < 0x10000 then [n]
  else [0xD800 + (n - 0x10000) / 0x400, 0xDC00 + (n - 0x10000) % 0x400]

/-- The scalar value shown for one code unit standing alone. -/
def unitChar (u : Nat) : Char :=
  if 0xD800 ≤ u ∧ u < 0xE000 then Char.ofNat 0xFFFD else Char.ofNat u

/-- Read UTF-16 code units as scalar values, pairing surrogates. -/
def utf16Decode : List Nat → List Char
  | [] => []
  | [u] => [unitChar u]
  | u :: v :: rest =>
    if 0xD800 ≤ u ∧ u < 0xDC00 ∧ 0xDC00 ≤ v ∧ v < 0xE000 then
      Char.ofNat (0x10000 + (u - 0xD800) * 0x400 + (v - 0xDC00)) :: utf16Decode rest
    else unitChar u :: utf16Decode (v :: rest)

/-- The rest of a JSON string after its opening quote: the decoded text and
the input after the closing quote.  `acc` holds the code units read so far,
last first. -/
def parseStringBody : List Char → List Nat → Option (String × List Char)
  | [], _ => none
  | c :: rest, acc =>
    if c = '\x22' then some (String.mk (utf16Decode acc.reverse), rest)
    else if c = '\x5c' then
      match rest with
      | [] => none
      | e :: rest1 =>
        if e = 'u' then
          match rest1 with
          | h1 :: h2 :: h3 :: h4 :: rest2 =>
            match hexVal h1, hexVal h2, hexVal h3, hexVal h4 with
            | some a, some b, some c, some d =>
              parseStringBody rest2 ((((a * 16 + b) * 16 + c) * 16 + d) :: acc)
            | _, _, _, _ => none
          | _ => none
        else
          match escapeUnit e with
          | some u => parseStringBody rest1 (u :: acc)
          | none => none
    else if c.toNat < 0x20 then none
    else parseStringBody rest ((utf16Units c).reverse ++ acc)

/-- The number denoted by a run of decimal digits. -/
def digitsVal (ds : List Char) : Nat :=
  ds.foldl (fun n d => 10 * n + (d.toNat - 48)) 0

/-- An optional exponent part `e`/`E`, sign, digits. -/
def parseExponent (cs : List Char) : Option (Int × List Char) :=
  match cs with
  | [] => some (0, [])
  | c :: rest =>
    if c = 'e' ∨ c = 'E' then
      let (neg, rest1) :=
        match rest with
        | s :: r => if s = '-' then (true, r) else if s = '+' then (false, r) else (false, rest)
        | [] => (false, rest)
      let (ds, rest2) := rest1.span Char.isDigit
      if ds.isEmpty then none
      else some (if neg then - (digitsVal ds : Int) else (digitsVal ds : Int), rest2)
    else some (0, cs)

/-- An optional fraction part `.` digits: the digits and the input after. -/
def parseFraction (cs : List Char) : Option (List Char × List Char) :=
  match cs with
  | [] => some ([], [])
  | c :: rest =>
    if c = '.' then
      let (ds, rest1) := rest.span Char.isDigit
      if ds.isEmpty then none else some (ds, rest1)
    else some ([], cs)

/-- A JSON number: optional minus, integer part without a superfluous leading
zero, optional fraction, optional exponent. -/
def parseNumber (cs : List Char) : Option (JNumber × List Char) :=
  let (neg, cs1) :=
    match cs with
    | c :: r => if c = '-' then (true, r) else (false, cs)
    | [] => (false, cs)
  let (ip, cs2) := cs1.span Char.isDigit
  if ip.isEmpty ∨ (1 < ip.length ∧ ip.head? = some '0') then none
  else
    match parseFraction cs2 with
    | none => none
    | some (fp, cs3) =>
      match parseExponent cs3 with
      | none => none
      | some (e, cs4) =>
        let m : Int := digitsVal (ip ++ fp)
        some (⟨if neg then - m else m, e - fp.length⟩, cs4)

/-- Strip the literal `word` from the front of the input. -/
def expectWord (word : String) (cs : List Char) : Option (List Char) :=
  if word.data.isPrefixOf cs then some (cs.drop word.data.length) else none

mutual
/-- One JSON value with the white space before it; `fuel` bounds the nesting
and the number of members read. -/
def parseValue : Nat → List Char → Option (JVal × List Char)
  | 0, _ => none
  | fuel + 1, cs =>
    match skipWs cs with
    | [] => none
    | c :: rest =>
      if c = '\x7b' then
        match skipWs rest with
        | [] => none
        | d :: rest1 =>
          if d = '\x7d' then some (.obj [], rest1) else parseMembers fuel (d :: rest1) []
      else if c = '[' then
        match skipWs rest with
        | [] => none
        | d :: rest1 =>
          if d = ']' then some (.arr [], rest1) else parseElements fuel (d :: rest1) []
      else if c = '\x22' then
        match parseStringBody rest [] with
        | some (s, rest1) => some (.str s, rest1)
        | none => none
      else if c = 't' then (expectWord "true" (c :: rest)).map (fun r => (.bool true, r))
      else if c = 'f' then (expectWord "false" (c :: rest)).map (fun r => (.bool false, r))
      else if c = 'n' then (expectWord "null" (c :: rest)).map (fun r => (.null, r))
      else
        match parseNumber (c :: rest) with
        | some (n, rest1) => some (.num n, rest1)
        | none => none
/-- The elements of a non-empty array, up to and including the closing
bracket.  `acc` holds the elements read so far, last first. -/
def parseElements : Nat → List Char → List JVal → Option (JVal × List Char)
  | 0, _, _ => none
  | fuel + 1, cs, acc =>
    match parseValue fuel cs with
    | none => none
    | some (v, rest) =>
      match skipWs rest with
      | [] => none
      | c :: rest1 =>
        if c = ',' then parseElements fuel rest1 (v :: acc)
        else if c = ']' then some (.arr (v :: acc).reverse, rest1)
        else none
/-- The members of a non-empty object, up to and including the closing brace.
`acc` holds the members read so far, last first. -/
def parseMembers : Nat → List Char → List (String × JVal) → Option (JVal × List Char)
  | 0, _, _ => none
  | fuel + 1, cs, acc =>
    match skipWs cs with
    | [] => none
    | q :: rest =>
      if q = '\x22' then
        match parseStringBody rest [] with
        | none => none
        | some (k, rest1) =>
          match skipWs rest1 with
          | [] => none
          | colon :: rest2 =>
            if colon = ':' then
              match parseValue fuel rest2 with
              | none => none
              | some (v, rest3) =>
                match skipWs rest3 with
                | [] => none
                | c :: rest4 =>
                  if c = ',' then parseMembers fuel rest4 ((k, v) :: acc)
                  else if c = '\x7d' then some (.obj ((k, v) :: acc).reverse, rest4)
                  else none
            else none
      else none
end

/-- The function `JSON.parse`: one value, white space around it, nothing else;
`none` stands for the `SyntaxError` it throws.  Every call of the three
mutually recursive parsers reads at least one character before it calls
another, so one unit of fuel per character (and one to start) is enough. -/
def jsonParse (text : String) : Option JVal :=
  match parseValue (text.data.length + 1) text.data with
  | some (v, rest) => if (skipWs rest).isEmpty then some v else none
  | none => none

/-! ## Page state -/

/-- The two `AbortController` objects an exchange creates: the one of the
submit handler, used for the open request, and the one of `doStream`. -/
inductive Controller where
  | forOpen
  | forStream
  deriving DecidableEq

/-- A request handed to `fetch`. -/
inductive Request where
  /-- The request `GET {base}/open`. -/
  | openChat
  /-- The request `POST {base}/chat_message/{chatId}` with `message` in the body; `chatId`
  is the value read from the open response (`none` is `undefined`). -/
  | chatMessage (chatId : Option JVal) (message : String)

/-- Everything the script reads and writes: `state.controller`,
`state.latestText`, the `textContent` of `el.status`, `el.output` and `el.log`,
and, to observe the outside world, the controllers whose `abort()` was called
and the requests passed to `fetch`, oldest first. -/
structure Page where
  controller : Option Controller
  latestText : String
  status : String
  output : String
  log : String
  aborted : List Controller
  fetched : List Request

/-- The function `resetOutput`. -/
def resetOutput (p : Page) : Page :=
  { p with output := "", latestText := "", log := "" }

/-- The function `appendOutput`. -/
def appendOutput (p : Page) (text : String) : Page :=
  let p1 := { p with latestText := p.latestText ++ text }
  { p1 with output := p1.latestText }

/-- The function `setStatus`. -/
def setStatus (p : Page) (text : String) : Page :=
  { p with status := text }

/-- The function `logLine`. -/
def logLine (p : Page) (text : String) : Page :=
  { p with log := p.log ++ (text ++ "\n") }

/-- The click handler of the cancel button. -/
def cancelClick (p : Page) : Page :=
  match p.controller with
  | some c => setStatus { p with aborted := p.aborted ++ [c], controller := none } "已取消"
  | none => p

/-! ## The chunk loop of `doStream` -/

/-- The two statements after `JSON.parse` in the `try` block: the value of
`obj?.content` when `typeof` gives `string` for it. -/
def contentOf (obj : JVal) : Option String :=
  match obj.member "content" with
  | some (.str content) => some content
  | _ => none

/-- The body of the `for` loop up to the call of `appendOutput`: the text the
line appends, if any.  `parse` is `JSON.parse`, `none` standing for a thrown
exception, which the `catch` swallows. -/
def lineEvent (parse : String → Option JVal) (line : String) : Option String :=
  if line = "" then none
  else if !startsWith line "data:" then none
  else
    let dataStr := jsTrim (slice line 5)
    if dataStr = "" then none
    else
      match parse dataStr with
      | none => none
      | some obj => contentOf obj

/-- One iteration of the `for` loop. -/
def processLine (parse : String → Option JVal) (p : Page) (line : String) : Page :=
  match lineEvent parse line with
  | some content => appendOutput p content
  | none => p

/-- The `for` loop over the lines of one decoded chunk. -/
def processChunk (parse : String → Option JVal) (p : Page) (chunk : String) : Page :=
  (splitLines chunk).foldl (processLine parse) p

/-- The `while` loop over the chunks read before the stream ends. -/
def readLoop (parse : String → Option JVal) (p : Page) (chunks : List String) : Page :=
  chunks.foldl (processChunk parse) p

/-- The arguments of the `appendOutput` calls made for one chunk, in order. -/
def chunkEvents (parse : String → Option JVal) (chunk : String) : List String :=
  (splitLines chunk).filterMap (lineEvent parse)

/-- The arguments of the `appendOutput` calls made for a sequence of chunks. -/
def streamEvents (parse : String → Option JVal) (chunks : List String) : List String :=
  (chunks.map (chunkEvents parse)).flatten

/-! ## Thrown values and awaited operations -/

/-- A thrown error object: its `name` and `message` properties. -/
structure Thrown where
  name : String
  message : String

/-- The object `new Error(message)`. -/
def newError (message : String) : Thrown := ⟨"Error", message⟩

/-- The text of `String(err)`, as `Error.prototype.toString` builds it. -/
def Thrown.asString (e : Thrown) : String :=
  if e.name = "" then e.message
  else if e.message = "" then e.name
  else e.name ++ ": " ++ e.message

/-- The text of `err?.message || String(err)`. -/
def errorText (e : Thrown) : String :=
  if e.message = "" then e.asString else e.message

/-- How an awaited operation settles.  While the handler is suspended in an
`await` the only other code of the script that can run is the cancel handler:
`aborted err` is the case where the user clicks cancel during the wait, after
which the aborted operation rejects with `err`. -/
inductive Settled (α : Type) where
  | resolved (value : α)
  | rejected (err : Thrown)
  | aborted (err : Thrown)

/-- The page after the wait and what the `await` expression yields. -/
def await {α : Type} (p : Page) (s : Settled α) : Page × Except Thrown α :=
  match s with
  | .resolved value => (p, .ok value)
  | .rejected err => (p, .error err)
  | .aborted err => (cancelClick p, .error err)

/-- The property `Response.ok`: a status in the range 200 to 299. -/
def isOk (status : Nat) : Bool := 200 ≤ status && status ≤ 299

/-- The response to the open request: its status and how `openResp.json()`
settles. -/
structure OpenResponse where
  status : Nat
  json : Settled JVal

/-- The body stream of a message response: the decoded text of the chunks that
`reader.read()` delivers, and how the read after the last chunk settles
(`resolved ()` is `done: true`). -/
structure StreamBody where
  chunks : List String
  ending : Settled Unit

/-- The response to the message request: its status, how `resp.text()` settles
(read only for a non-success status), and `resp.body`, where `none` is the
`null` body of a response that carries no content (status 204 or 205). -/
structure StreamResponse where
  status : Nat
  text : Settled String
  body : Option StreamBody

/-- One exchange as the environment plays it: the text of the query field and
how the two requests settle. -/
structure Scenario where
  query : String
  openFetch : Settled OpenResponse
  sendFetch : Settled StreamResponse

/-- Whether the double nearest to the written number is zero: the mantissa is
zero, or the value is at most `2 ^ (-1075)` and rounds to zero. -/
def JNumber.isZero (n : JNumber) : Bool :=
  n.mantissa = 0 || (n.exp10 < 0 && n.mantissa.natAbs * 2 ^ 1075 ≤ 10 ^ n.exp10.natAbs)

/-- The truth value of a property read from a decoded JSON value; `none` is
`undefined`. -/
def truthy : Option JVal → Bool
  | none => false
  | some .null => false
  | some (.bool b) => b
  | some (.num n) => !n.isZero
  | some (.str s) => s ≠ ""
  | some (.arr _) => true
  | some (.obj _) => true

/-- The `TypeError` of reading a property of `null`; the wording is the
engine's. -/
def nullReadError : Thrown := ⟨"TypeError", "openData is null"⟩

/-- The `TypeError` of calling `getReader` on a `null` body; the wording is
the engine's. -/
def nullBodyError : Thrown := ⟨"TypeError", "resp.body is null"⟩

/-! ## `doStream` and the submit handler -/

/-- The function `doStream`: the page when it returns or throws, and the
thrown value if it throws. -/
def doStream (parse : String → Option JVal) (p : Page) (chatId : Option JVal)
    (message : String)
    (send : Settled StreamResponse) : Page × Option Thrown :=
  let p1 := { p with controller := some Controller.forStream,
                     fetched := p.fetched ++ [Request.chatMessage chatId message] }
  match await p1 send with
  | (p2, .error err) => (p2, some err)
  | (p2, .ok resp) =>
    if !isOk resp.status then
      match await p2 resp.text with
      | (p3, .error err) => (p3, some err)
      | (p3, .ok t) =>
        (logLine p3 ("[stream] status=" ++ toString resp.status ++ " body=" ++ t),
          some (newError ("HTTP " ++ toString resp.status)))
    else
      match resp.body with
      | none => (p2, some nullBodyError)
      | some body =>
        let p3 := setStatus p2 "流式接收中..."
        let p4 := readLoop parse p3 body.chunks
        match await p4 body.ending with
        | (p5, .error err) => (p5, some err)
        | (p5, .ok _) => (p5, none)

/-- The `try` block of the submit handler. -/
def tryBlock (parse : String → Option JVal) (p : Page) (message : String) (sc : Scenario) :
    Page × Option Thrown :=
  let p1 := { p with controller := some Controller.forOpen,
                     fetched := p.fetched ++ [Request.openChat] }
  match await p1 sc.openFetch with
  | (p2, .error err) => (p2, some err)
  | (p2, .ok openResp) =>
    if !isOk openResp.status then
      (p2, some (newError ("open 失败: " ++ toString openResp.status)))
    else
      match await p2 openResp.json with
      | (p3, .error err) => (p3, some err)
      | (p3, .ok openData) =>
        match openData with
        | .null => (p3, some nullReadError)
        | _ =>
          let chatId := openData.member "data"
          if !truthy chatId then (p3, some (newError "未返回 chat_id"))
          else
            let p4 := setStatus p3 "等待回复..."
            match doStream parse p4 chatId message sc.sendFetch with
            | (p5, some err) => (p5, some err)
            | (p5, none) => (setStatus p5 "完成", none)

/-- The submit handler: `try`, `catch` and `finally`. -/
def submit (parse : String → Option JVal) (p : Page) (sc : Scenario) : Page :=
  let message := jsTrim sc.query
  if message = "" then p
  else
    let p1 := setStatus (resetOutput p) "打开会话..."
    let p3 :=
      match tryBlock parse p1 message sc with
      | (p2, none) => p2
      | (p2, some err) => logLine (setStatus p2 "错误") ("Error: " ++ errorText err)
    { p3 with controller := none }

/-- The page when the script has loaded: `state` as the script initialises it;
the texts of the three elements, which the document sets, are taken empty. -/
def loadedPage : Page :=
  { controller := none, latestText := "", status := "", output := "", log := "",
    aborted := [], fetched := [] }

/-! ## Notions used in the statements -/

/-- The concatenation of a list of texts. -/
def concatText : List String → String
  | [] => ""
  | t :: ts => t ++ concatText ts

/-- Whether the open request of a scenario yields a session identifier: the
response arrives with a success status and the `data` member of its JSON body
is truthy. -/
def openSucceeds (sc : Scenario) : Bool :=
  match sc.openFetch with
  | .resolved r =>
    isOk r.status &&
      (match r.json with
       | .resolved v => truthy (v.member "data")
       | _ => false)
  | _ => false

/-- The session identifier a scenario yields: the `data` member of the JSON
body of the open response. -/
def sessionId (sc : Scenario) : Option JVal :=
  match sc.openFetch with
  | .resolved r =>
    (match r.json with
     | .resolved v => v.member "data"
     | _ => none)
  | _ => none

/-- Whether an awaited operation is interrupted by a cancel click. -/
def Settled.isAborted {α : Type} : Settled α → Bool
  | .aborted _ => true
  | _ => false

/-- Whether the user clicks cancel during the exchange: one of the operations
the handler comes to wait for is interrupted by the click. -/
def cancelled (sc : Scenario) : Bool :=
  match sc.openFetch with
  | .aborted _ => true
  | .rejected _ => false
  | .resolved r =>
    isOk r.status &&
      (r.json.isAborted ||
        (openSucceeds sc &&
          (match sc.sendFetch with
           | .aborted _ => true
           | .rejected _ => false
           | .resolved s =>
             if isOk s.status then
               (match s.body with
                | some b => b.ending.isAborted
                | none => false)
             else s.text.isAborted)))

/-- Whether the exchange runs to its end: the open request yields a session
identifier, the message request is answered with a success status and a body,
and the stream ends with `done`. -/
def completes (sc : Scenario) : Bool :=
  openSucceeds sc &&
    (match sc.sendFetch with
     | .resolved s =>
       isOk s.status &&
         (match s.body with
          | some b =>
            (match b.ending with
             | .resolved _ => true
             | _ => false)
          | none => false)
     | _ => false)

/-- The chunks the stream of the exchange delivers; none when the exchange
does not get to read a stream. -/
def received (sc : Scenario) : List String :=
  if openSucceeds sc then
    match sc.sendFetch with
    | .resolved s =>
      if isOk s.status then
        (match s.body with
         | some b => b.chunks
         | none => [])
      else []
    | _ => []
  else []

/-- The log line with the status code and the raw body text of a message
response that has a non-success status and whose body text is read; empty in
every other exchange. -/
def statusLine (sc : Scenario) : String :=
  if openSucceeds sc then
    match sc.sendFetch with
    | .resolved s =>
      if isOk s.status then ""
      else
        (match s.text with
         | .resolved t => "[stream] status=" ++ toString s.status ++ " body=" ++ t ++ "\n"
         | _ => "")
    | _ => ""
  else ""

/-- Whether the text `needle` occurs in the text `hay`. -/
def containsText (hay needle : String) : Bool :=
  hay.data.tails.any (fun rest => needle.data.isPrefixOf rest)

/-- The page shows the generic failure status, its log holds exactly `log`,
and both the running text and the displayed output are `shown`. -/
def FailedWith (q : Page) (shown log : String) : Prop :=
  q.status = "错误" ∧ q.log = log ∧ q.latestText = shown ∧ q.output = shown

instance (q : Page) (shown log : String) : Decidable (FailedWith q shown log) := by
  unfold FailedWith
  infer_instance

/-- The error with which an aborted request rejects; the wording is the
browser's. -/
def abortError : Thrown := ⟨"AbortError", "The user aborted a request."⟩

/-- An exchange in which the user clicks cancel while the open request is
pending. -/
def cancelDuringOpen : Scenario :=
  { query := "hello", openFetch := .aborted abortError, sendFetch := .aborted abortError }

/-- An exchange in which both requests succeed and the user clicks cancel
while the first read of the stream is pending. -/
def cancelBeforeFirstChunk : Scenario :=
  { query := "hello",
    openFetch := .resolved ⟨200, .resolved (.obj [("data", .str "c1")])⟩,
    sendFetch := .resolved ⟨200, .resolved "", some ⟨[], .aborted abortError⟩⟩ }

/-- An exchange whose open response has a success status and the given JSON
body, and whose message request, were it made, would stream `Hi`. -/
def openedWith (body : JVal) : Scenario :=
  { query := "hello",
    openFetch := .resolved ⟨200, .resolved body⟩,
    sendFetch := .resolved ⟨200, .resolved "",
      some ⟨["data: \x7b\"content\":\"Hi\"\x7d\n\n"], .resolved ()⟩⟩ }

/-- An exchange whose message request is answered with status 500 and the
body `oops`. -/
def sendRefused : Scenario :=
  { query := "hello",
    openFetch := .resolved ⟨200, .resolved (.obj [("data", .str "c1")])⟩,
    sendFetch := .resolved ⟨500, .resolved "oops", some ⟨[], .resolved ()⟩⟩ }

/-- An exchange whose message request is answered with status 500 and a body
that fails in transport while it is read. -/
def sendRefusedUnread : Scenario :=
  { query := "hello",
    openFetch := .resolved ⟨200, .resolved (.obj [("data", .str "c1")])⟩,
    sendFetch := .resolved ⟨500, .rejected ⟨"TypeError", "network error"⟩,
      some ⟨[], .resolved ()⟩⟩ }

/-- An exchange whose message request is answered with status 204 and no
body. -/
def emptyReply : Scenario :=
  { query := "hello",
    openFetch := .resolved ⟨200, .resolved (.obj [("data", .str "c1")])⟩,
    sendFetch := .resolved ⟨204, .resolved "", none⟩ }

/-- An exchange whose stream delivers `Hi` and then fails in transport. -/
def streamBroken : Scenario :=
  { query := "hello",
    openFetch := .resolved ⟨200, .resolved (.obj [("data", .str "c1")])⟩,
    sendFetch := .resolved ⟨200, .resolved "",
      some ⟨["data: \x7b\"content\":\"Hi\"\x7d\n\n"], .rejected ⟨"TypeError", "network error"⟩⟩⟩ }

/-- The text made of the given lines, each followed by `\n`. -/
def terminatedLines (lines : List String) : String :=
  concatText (lines.map (fun l => l ++ "\n"))

/-- Whether a text ends with the line terminator `\n`. -/
def endsWithLF (f : String) : Bool :=
  decide (f.data.getLast? = some '\n')

/-- A line without the `\r` that a following `\n` takes into the terminator. -/
def stripCR (l : List Char) : List Char :=
  if l.getLast? = some '\r' then l.dropLast else l

/-- The piece of a text after its last `\n`; the whole text when it has none. -/
def trailingRemainder (chunk : String) : String :=
  String.mk (chunk.data.reverse.takeWhile (fun c => c != '\n')).reverse

/-! ## Lemmas on line splitting -/

theorem splitChars_ne_nil (cs : List Char) : splitChars cs ≠ [] := by
  match cs with
  | [] => simp [splitChars]
  | [c] => simp only [splitChars]; split <;> simp
  | c :: d :: rest =>
    simp only [splitChars]
    split
    · simp
    · split
      · simp
      · cases h : splitChars (d :: rest) <;> simp [consHead]

theorem splitChars_lf (q : List Char) : splitChars ('\n' :: q) = [] :: splitChars q := by
  cases q <;> simp [splitChars]

theorem splitChars_crlf (q : List Char) : splitChars ('\r' :: '\n' :: q) = [] :: splitChars q := by
  simp [splitChars]

theorem splitChars_cons (c : Char) (q : List Char) (hc : c ≠ '\n')
    (hq : ¬ (c = '\r' ∧ q.head? = some '\n')) :
    splitChars (c :: q) = consHead c (splitChars q) := by
  cases q with
  | nil => simp [splitChars, hc, consHead]
  | cons d rest =>
    have : ¬ (c = '\r' ∧ d = '\n') := by simpa using hq
    simp [splitChars, hc, this]

theorem consHead_append (c : Char) (xs ys : List (List Char)) (h : xs ≠ []) :
    consHead c (xs ++ ys) = consHead c xs ++ ys := by
  cases xs with
  | nil => exact absurd rfl h
  | cons x xs => simp [consHead]

theorem splitChars_append_lf_aux (n : Nat) : ∀ (p : List Char), p.length ≤ n →
    ∃ D : List (List Char), D ≠ [] ∧
      ∀ q, splitChars (p ++ '\n' :: q) = D ++ splitChars q := by
  induction n with
  | zero =>
    intro p hp
    have : p = [] := List.length_eq_zero.mp (Nat.le_zero.mp hp)
    subst this
    exact ⟨[[]], by simp, fun q => by simp [splitChars_lf]⟩
  | succ n ih =>
    intro p hp
    match p, hp with
    | [], _ => exact ⟨[[]], by simp, fun q => by simp [splitChars_lf]⟩
    | c :: p1, hp =>
      have hp1 : p1.length ≤ n := by simpa using hp
      obtain ⟨D1, hD1, hsplit1⟩ := ih p1 hp1
      by_cases hc : c = '\n'
      · subst hc
        refine ⟨[] :: D1, by simp, fun q => ?_⟩
        simp only [List.cons_append, splitChars_lf, hsplit1]
      · by_cases hr : c = '\r' ∧ (p1 ++ ['\n']).head? = some '\n'
        · obtain ⟨hr1, hr2⟩ := hr
          subst hr1
          match p1, hp1, hr2 with
          | [], _, _ => exact ⟨[[]], by simp, fun q => by simp [splitChars_crlf]⟩
          | d :: p2, hp2, hr2 =>
            have hd : d = '\n' := by simpa using hr2
            subst hd
            have hp2' : p2.length ≤ n := by
              simp only [List.length_cons] at hp2; omega
            obtain ⟨D2, _, hsplit2⟩ := ih p2 hp2'
            refine ⟨[] :: D2, by simp, fun q => ?_⟩
            simp only [List.cons_append, splitChars_crlf, hsplit2]
        · refine ⟨consHead c D1, ?_, fun q => ?_⟩
          · cases D1 <;> simp [consHead]
          · have hq : ¬ (c = '\r' ∧ (p1 ++ '\n' :: q).head? = some '\n') := by
              intro h
              apply hr
              refine ⟨h.1, ?_⟩
              cases p1 <;> simp
              simpa using h.2
            simp only [List.cons_append]
            rw [splitChars_cons c _ hc hq, hsplit1, consHead_append _ _ _ hD1]

/-- The pieces of a text that a line terminator ends: all pieces of
`p ++ "\n"` but the empty last one. -/
theorem splitChars_append_lf (p q : List Char) :
    splitChars (p ++ '\n' :: q) = (splitChars (p ++ ['\n'])).dropLast ++ splitChars q := by
  obtain ⟨D, _, hD⟩ := splitChars_append_lf_aux p.length p (Nat.le_refl _)
  have h1 := hD []
  rw [hD q, h1]
  simp [splitChars]

theorem splitChars_of_not_mem (l : List Char) (h : '\n' ∉ l) : splitChars l = [l] := by
  induction l with
  | nil => simp [splitChars]
  | cons c l ih =>
    have hc : c ≠ '\n' := fun hc => h (by simp [hc])
    have hl : '\n' ∉ l := fun hl => h (by simp [hl])
    have hq : ¬ (c = '\r' ∧ l.head? = some '\n') := by
      rintro ⟨_, h2⟩
      exact hl (List.mem_of_mem_head? h2)
    rw [splitChars_cons c l hc hq, ih hl]
    rfl

theorem stripCR_cons (c : Char) (l : List Char) (h : l ≠ [] ∨ c ≠ '\r') :
    stripCR (c :: l) = c :: stripCR l := by
  cases l with
  | nil =>
    have hc : c ≠ '\r' := by simpa using h
    simp [stripCR, hc]
  | cons d l =>
    simp only [stripCR, List.getLast?_cons_cons]
    split <;> simp

theorem splitChars_line_lf (l : List Char) (h : '\n' ∉ l) :
    splitChars (l ++ ['\n']) = [stripCR l, []] := by
  induction l with
  | nil => simp [splitChars, stripCR]
  | cons c l ih =>
    have hc : c ≠ '\n' := fun hc => h (by simp [hc])
    have hl : '\n' ∉ l := fun hl => h (by simp [hl])
    by_cases hcr : c = '\r' ∧ l = []
    · obtain ⟨h1, h2⟩ := hcr
      subst h1 h2
      simp [splitChars, stripCR]
    · have hq : ¬ (c = '\r' ∧ (l ++ ['\n']).head? = some '\n') := by
        rintro ⟨h1, h2⟩
        cases l with
        | nil => exact hcr ⟨h1, rfl⟩
        | cons d l =>
          have : d = '\n' := by simpa using h2
          exact hl (by simp [this])
      have hs : l ≠ [] ∨ c ≠ '\r' := by
        by_cases hl0 : l = []
        · exact Or.inr (fun h1 => hcr ⟨h1, hl0⟩)
        · exact Or.inl hl0
      simp only [List.cons_append]
      rw [splitChars_cons c _ hc hq, ih hl, stripCR_cons c l hs]
      rfl

/-- A line without `\n` in front of a terminator is one piece, without the
`\r` the terminator takes with it. -/
theorem splitChars_line (l q : List Char) (h : '\n' ∉ l) :
    splitChars (l ++ '\n' :: q) = stripCR l :: splitChars q := by
  rw [splitChars_append_lf, splitChars_line_lf l h]
  rfl

theorem trimChars_concat_cr (x : List Char) : trimChars (x ++ ['\r']) = trimChars x := by
  have hr : isTrimChar '\r' = true := by decide
  unfold trimChars
  rw [List.dropWhile_append]
  by_cases he : (List.dropWhile isTrimChar x).isEmpty = true
  · have : List.dropWhile isTrimChar x = [] := by simpa using he
    simp [this, hr]
  · simp only [he, Bool.false_eq_true, ↓reduceIte, List.reverse_append, List.reverse_cons,
      List.reverse_nil, List.nil_append, List.singleton_append]
    rw [List.dropWhile_cons_of_pos hr]

theorem startsWith_data_concat_cr (l : List Char) :
    startsWith (String.mk (l ++ ['\r'])) "data:" = startsWith (String.mk l) "data:" := by
  unfold startsWith
  rw [Bool.eq_iff_iff]
  simp only [List.isPrefixOf_iff_prefix, List.prefix_concat_iff]
  constructor
  · rintro (h | h)
    · exfalso
      have h2 := congrArg List.getLast? h
      rw [List.getLast?_concat] at h2
      revert h2
      decide
    · exact h
  · exact fun h => Or.inr h

theorem startsWith_data_length (l : List Char) (h : startsWith (String.mk l) "data:" = true) :
    5 ≤ l.length := by
  unfold startsWith at h
  rw [List.isPrefixOf_iff_prefix] at h
  exact h.length_le

theorem lineEvent_concat_cr (parse : String → Option JVal) (l : List Char) :
    lineEvent parse (String.mk (l ++ ['\r'])) = lineEvent parse (String.mk l) := by
  by_cases hl : l = []
  · subst hl
    have h1 : lineEvent parse (String.mk ([] ++ ['\r'])) = none := by
      unfold lineEvent
      rw [if_neg (by decide), if_pos (by decide)]
    have h2 : lineEvent parse (String.mk []) = none := by
      unfold lineEvent
      rw [if_pos (by decide)]
    rw [h1, h2]
  · unfold lineEvent
    have e1 : ¬ (String.mk (l ++ ['\r']) = "") := by
      intro h
      have := congrArg String.data h
      simp at this
    have e2 : ¬ (String.mk l = "") := by
      intro h
      have := congrArg String.data h
      exact hl (by simpa using this)
    rw [if_neg e1, if_neg e2, startsWith_data_concat_cr]
    by_cases hs : startsWith (String.mk l) "data:" = true
    · have hlen := startsWith_data_length l hs
      have : jsTrim (slice (String.mk (l ++ ['\r'])) 5) = jsTrim (slice (String.mk l) 5) := by
        unfold jsTrim slice
        simp only [List.drop_append_of_le_length hlen, trimChars_concat_cr]
      rw [this]
    · simp [hs]

theorem lineEvent_stripCR (parse : String → Option JVal) (l : List Char) :
    lineEvent parse (String.mk (stripCR l)) = lineEvent parse (String.mk l) := by
  unfold stripCR
  split
  · rename_i h
    have hne : l ≠ [] := by
      intro h0
      simp [h0] at h
    have hl : l = l.dropLast ++ ['\r'] := by
      have h3 := List.dropLast_concat_getLast hne
      rw [List.getLast?_eq_getLast l hne] at h
      have h4 : l.getLast hne = '\r' := by simpa using h
      rw [h4] at h3
      exact h3.symm
    conv_rhs => rw [hl]
    rw [lineEvent_concat_cr]
  · rfl

theorem lineEvent_empty (parse : String → Option JVal) : lineEvent parse "" = none := by
  unfold lineEvent
  rw [if_pos rfl]

/-! ## Lemmas on the chunk loop -/

theorem splitLines_append_lf (f g : String) (h : endsWithLF f = true) :
    splitLines (f ++ g) = (splitLines f).dropLast ++ splitLines g ∧
      splitLines f = (splitLines f).dropLast ++ [""] := by
  have h1 : f.data.getLast? = some '\n' := by simpa [endsWithLF] using h
  have hne : f.data ≠ [] := by
    intro h0
    simp [h0] at h1
  have hf : f.data = f.data.dropLast ++ ['\n'] := by
    have h3 := List.dropLast_concat_getLast hne
    rw [List.getLast?_eq_getLast _ hne] at h1
    have h4 : f.data.getLast hne = '\n' := by simpa using h1
    rw [h4] at h3
    exact h3.symm
  have hsplit : splitChars f.data = (splitChars f.data).dropLast ++ [[]] := by
    have := splitChars_append_lf f.data.dropLast []
    rw [← hf] at this
    simpa [splitChars] using this
  constructor
  · unfold splitLines
    rw [String.data_append]
    conv_lhs => rw [hf, List.append_assoc, List.singleton_append, splitChars_append_lf, ← hf]
    simp [List.map_dropLast]
  · unfold splitLines
    conv_lhs => rw [hsplit]
    simp [List.map_dropLast]

theorem chunkEvents_append (parse : String → Option JVal) (f g : String)
    (h : endsWithLF f = true) :
    chunkEvents parse (f ++ g) = chunkEvents parse f ++ chunkEvents parse g := by
  obtain ⟨h1, h2⟩ := splitLines_append_lf f g h
  unfold chunkEvents
  rw [h1]
  conv_rhs => rw [h2]
  simp [List.filterMap_append, lineEvent_empty]

theorem streamEvents_cons (parse : String → Option JVal) (c : String) (cs : List String) :
    streamEvents parse (c :: cs) = chunkEvents parse c ++ streamEvents parse cs := by
  simp [streamEvents]

theorem streamEvents_singleton (parse : String → Option JVal) (c : String) :
    streamEvents parse [c] = chunkEvents parse c := by
  simp [streamEvents]

theorem streamEvents_line_aligned (parse : String → Option JVal) (fs : List String)
    (last : String) (h : ∀ f ∈ fs, endsWithLF f = true) :
    streamEvents parse (fs ++ [last]) = chunkEvents parse (concatText (fs ++ [last])) := by
  induction fs with
  | nil => simp [streamEvents, concatText]
  | cons f fs ih =>
    have hf : endsWithLF f = true := h f (by simp)
    have hfs : ∀ g ∈ fs, endsWithLF g = true := fun g hg => h g (by simp [hg])
    have hc : concatText (f :: (fs ++ [last])) = f ++ concatText (fs ++ [last]) := rfl
    rw [List.cons_append, streamEvents_cons, hc, chunkEvents_append parse f _ hf, ih hfs]

theorem foldl_processLine (parse : String → Option JVal) (lines : List String) (p : Page) :
    lines.foldl (processLine parse) p =
      (lines.filterMap (lineEvent parse)).foldl appendOutput p := by
  induction lines generalizing p with
  | nil => rfl
  | cons l ls ih =>
    simp only [List.foldl_cons, List.filterMap_cons]
    rw [ih]
    unfold processLine
    cases lineEvent parse l <;> rfl

theorem processChunk_eq (parse : String → Option JVal) (p : Page) (chunk : String) :
    processChunk parse p chunk = (chunkEvents parse chunk).foldl appendOutput p :=
  foldl_processLine parse _ p

theorem readLoop_eq (parse : String → Option JVal) (chunks : List String) (p : Page) :
    readLoop parse p chunks = (streamEvents parse chunks).foldl appendOutput p := by
  induction chunks generalizing p with
  | nil => rfl
  | cons c cs ih =>
    rw [streamEvents_cons, List.foldl_append, ← processChunk_eq, ← ih]
    rfl

theorem foldl_appendOutput_latestText (ts : List String) (p : Page) :
    (ts.foldl appendOutput p).latestText = p.latestText ++ concatText ts := by
  induction ts generalizing p with
  | nil => simp [concatText]
  | cons t ts ih =>
    simp only [List.foldl_cons, concatText]
    rw [ih]
    simp [appendOutput, String.append_assoc]

theorem foldl_appendOutput_output (ts : List String) (p : Page)
    (h : p.output = p.latestText) :
    (ts.foldl appendOutput p).output = (ts.foldl appendOutput p).latestText := by
  induction ts generalizing p with
  | nil => exact h
  | cons t ts ih => exact ih _ rfl

/-! ## The piece after the last terminator -/

theorem takeWhile_append_stop {α : Type} (f : α → Bool) (xs ys : List α) (a : α)
    (ha : f a = false) : (xs ++ a :: ys).takeWhile f = xs.takeWhile f := by
  induction xs with
  | nil => simp [List.takeWhile, ha]
  | cons x xs ih =>
    simp only [List.cons_append, List.takeWhile_cons]
    split
    · rw [ih]
    · rfl

theorem remainder_append_lf (p q : List Char) :
    ((p ++ '\n' :: q).reverse.takeWhile (fun c => c != '\n')).reverse =
      (q.reverse.takeWhile (fun c => c != '\n')).reverse := by
  have : (p ++ '\n' :: q).reverse = q.reverse ++ '\n' :: p.reverse := by simp
  rw [this, takeWhile_append_stop _ _ _ _ (by decide)]

theorem remainder_of_not_mem (q : List Char) (h : '\n' ∉ q) :
    (q.reverse.takeWhile (fun c => c != '\n')).reverse = q := by
  have : q.reverse.takeWhile (fun c => c != '\n') = q.reverse := by
    rw [List.takeWhile_eq_self_iff]
    intro c hc
    have hc' : c ∈ q := List.mem_reverse.mp hc
    have : c ≠ '\n' := fun h0 => h (h0 ▸ hc')
    simpa using this
  rw [this, List.reverse_reverse]

theorem splitChars_getLast_aux (n : Nat) : ∀ cs : List Char, cs.length ≤ n →
    (splitChars cs).getLast? = some (cs.reverse.takeWhile (fun c => c != '\n')).reverse := by
  induction n with
  | zero =>
    intro cs h
    have : cs = [] := List.length_eq_zero.mp (Nat.le_zero.mp h)
    subst this
    rfl
  | succ n ih =>
    intro cs h
    by_cases hm : '\n' ∈ cs
    · obtain ⟨s, t, rfl⟩ := List.append_of_mem hm
      have ht : t.length ≤ n := by
        simp only [List.length_append, List.length_cons] at h
        omega
      rw [splitChars_append_lf, remainder_append_lf, ← ih t ht,
        List.getLast?_append_of_ne_nil _ (splitChars_ne_nil t)]
    · rw [splitChars_of_not_mem cs hm, remainder_of_not_mem cs hm]
      rfl

theorem splitLines_getLast (chunk : String) :
    (splitLines chunk).getLast? = some (trailingRemainder chunk) := by
  unfold splitLines trailingRemainder
  rw [List.getLast?_map, splitChars_getLast_aux _ _ (Nat.le_refl _)]
  rfl

/-- C2 (as stated, refuted): a stream whose only chunk is one `data:` line
with no terminator after it appends the content of that line. -/
theorem unterminated_line_counterexample :
    trailingRemainder "data: \x7b\"content\":\"x\"\x7d" = "data: \x7b\"content\":\"x\"\x7d" ∧
    chunkEvents jsonParse "data: \x7b\"content\":\"x\"\x7d" = ["x"] ∧
    (readLoop jsonParse loadedPage ["data: \x7b\"content\":\"x\"\x7d"]).latestText = "x" := by
  decide

/-- C2 (amended): the piece after the last line terminator of a chunk (the
whole text when it contains no terminator) is the last line the loop handles
for that chunk; it is treated as every other line, so the texts the chunk
appends are those of the lines before it followed by its own, if it has one;
and nothing of it is kept for the next chunk, whose texts follow unchanged. -/
theorem trailing_remainder_is_processed (parse : String → Option JVal) (chunk : String) :
    (splitLines chunk).getLast? = some (trailingRemainder chunk) ∧
    chunkEvents parse chunk =
      (splitLines chunk).dropLast.filterMap (lineEvent parse) ++
        (lineEvent parse (trailingRemainder chunk)).toList ∧
    (∀ rest : List String,
      streamEvents parse (chunk :: rest) = chunkEvents parse chunk ++ streamEvents parse rest) := by
  have hlast := splitLines_getLast chunk
  refine ⟨hlast, ?_, fun rest => streamEvents_cons parse chunk rest⟩
  have hne : splitLines chunk ≠ [] := by
    intro h0
    rw [h0] at hlast
    simp at hlast
  have hsplit : splitLines chunk = (splitLines chunk).dropLast ++ [trailingRemainder chunk] := by
    have h3 := List.dropLast_concat_getLast hne
    rw [List.getLast?_eq_getLast _ hne] at hlast
    have h4 : (splitLines chunk).getLast hne = trailingRemainder chunk := by simpa using hlast
    rw [h4] at h3
    exact h3.symm
  unfold chunkEvents
  conv_lhs => rw [hsplit]
  rw [List.filterMap_append]
  cases h : lineEvent parse (trailingRemainder chunk) <;> simp [List.filterMap, h]

/-! ## The line filter and content extraction -/

theorem startsWith_data_split (line : String) (h : startsWith line "data:" = true) :
    line = "data:" ++ slice line 5 := by
  unfold startsWith at h
  rw [List.isPrefixOf_iff_prefix] at h
  obtain ⟨t, ht⟩ := h
  apply String.ext
  rw [String.data_append]
  unfold slice
  rw [← ht]
  rfl

theorem trimChars_decompose (cs : List Char) :
    ∃ pre post : List Char, cs = pre ++ trimChars cs ++ post ∧
      (∀ c ∈ pre, isTrimChar c = true) ∧ (∀ c ∈ post, isTrimChar c = true) := by
  refine ⟨cs.takeWhile isTrimChar,
    ((cs.dropWhile isTrimChar).reverse.takeWhile isTrimChar).reverse, ?_, ?_, ?_⟩
  · unfold trimChars
    rw [List.append_assoc, ← List.reverse_append, List.takeWhile_append_dropWhile,
      List.reverse_reverse, List.takeWhile_append_dropWhile]
  · intro c hc
    exact List.mem_takeWhile_imp hc
  · intro c hc
    exact List.mem_takeWhile_imp (List.mem_reverse.mp hc)

theorem lineEvent_of_not_startsWith (parse : String → Option JVal) (line : String)
    (h : startsWith line "data:" = false) : lineEvent parse line = none := by
  unfold lineEvent
  split
  · rfl
  · simp [h]

theorem lineEvent_of_startsWith (parse : String → Option JVal) (line : String)
    (h : startsWith line "data:" = true) :
    lineEvent parse line =
      if jsTrim (slice line 5) = "" then none
      else (parse (jsTrim (slice line 5))).bind contentOf := by
  have hne : line ≠ "" := by
    intro h0
    rw [h0] at h
    revert h
    decide
  unfold lineEvent
  rw [if_neg hne]
  simp only [h, Bool.not_true, Bool.false_eq_true, ↓reduceIte]
  split
  · rfl
  · cases parse (jsTrim (slice line 5)) <;> rfl

/-- C3: a line that does not begin with `data:` appends nothing; a line that
does is `data:` followed by its payload source `line.slice(5)`, the payload is
that source without the white space `trim` removes at both ends, an empty
payload appends nothing, and a non-empty payload is what is handed to
`JSON.parse`. -/
theorem line_filter (parse : String → Option JVal) (line : String) :
    (startsWith line "data:" = false → lineEvent parse line = none) ∧
    (startsWith line "data:" = true →
      line = "data:" ++ slice line 5 ∧
      (∃ pre post : List Char,
        (slice line 5).data = pre ++ (jsTrim (slice line 5)).data ++ post ∧
        (∀ c ∈ pre, isTrimChar c = true) ∧ (∀ c ∈ post, isTrimChar c = true)) ∧
      (jsTrim (slice line 5) = "" → lineEvent parse line = none) ∧
      (jsTrim (slice line 5) ≠ "" →
        lineEvent parse line = (parse (jsTrim (slice line 5))).bind contentOf)) := by
  refine ⟨lineEvent_of_not_startsWith parse line, fun h => ⟨startsWith_data_split line h,
    trimChars_decompose _, fun he => ?_, fun hne => ?_⟩⟩
  · rw [lineEvent_of_startsWith parse line h, if_pos he]
  · rw [lineEvent_of_startsWith parse line h, if_neg hne]

theorem line_filter_witness :
    startsWith "data:  \x7b\"content\":\"Hi\"\x7d \r" "data:" = true ∧
    jsTrim (slice "data:  \x7b\"content\":\"Hi\"\x7d \r" 5) = "\x7b\"content\":\"Hi\"\x7d" ∧
    lineEvent jsonParse "data:  \x7b\"content\":\"Hi\"\x7d \r" =
      (jsonParse "\x7b\"content\":\"Hi\"\x7d").bind contentOf ∧
    startsWith "data:   " "data:" = true ∧ lineEvent jsonParse "data:   " = none ∧
    startsWith "event: \x7b\"content\":\"Hi\"\x7d" "data:" = false ∧
    lineEvent jsonParse "event: \x7b\"content\":\"Hi\"\x7d" = none :=
  ⟨by decide, by decide,
    ((line_filter jsonParse "data:  \x7b\"content\":\"Hi\"\x7d \r").2 (by decide)).2.2.2 (by decide),
    by decide,
    ((line_filter jsonParse "data:   ").2 (by decide)).2.2.1 (by decide),
    by decide,
    (line_filter jsonParse "event: \x7b\"content\":\"Hi\"\x7d").1 (by decide)⟩

theorem contentOf_eq_some_iff (v : JVal) (t : String) :
    contentOf v = some t ↔
      ∃ members, v = JVal.obj members ∧ lookupMember "content" members = some (JVal.str t) := by
  unfold contentOf JVal.member
  constructor
  · intro h
    cases v with
    | obj members =>
      refine ⟨members, rfl, ?_⟩
      simp only at h
      cases hm : lookupMember "content" members with
      | none => simp [hm] at h
      | some w =>
        rw [hm] at h
        cases w <;> simp at h
        rw [h]
    | _ => simp at h
  · rintro ⟨members, rfl, hm⟩
    simp [hm]

/-- C4: for a `data:` line whose non-empty payload decodes to the value `v`,
the line appends the text `t` exactly when `v` is an object whose member
`content` is the string `t`; a value that is not an object, an object without
`content`, and an object whose `content` is not a string append nothing (the
model has no other outcome: nothing is thrown). -/
theorem content_extraction (parse : String → Option JVal) (line : String) (v : JVal)
    (hs : startsWith line "data:" = true) (hne : jsTrim (slice line 5) ≠ "")
    (hp : parse (jsTrim (slice line 5)) = some v) :
    (∀ t : String, lineEvent parse line = some t ↔
      ∃ members, v = JVal.obj members ∧
        lookupMember "content" members = some (JVal.str t)) ∧
    ((∀ members, v ≠ JVal.obj members) → lineEvent parse line = none) ∧
    (∀ members, v = JVal.obj members → lookupMember "content" members = none →
      lineEvent parse line = none) ∧
    (∀ members w, v = JVal.obj members → lookupMember "content" members = some w →
      (∀ t, w ≠ JVal.str t) → lineEvent parse line = none) := by
  have hline : lineEvent parse line = contentOf v := by
    rw [lineEvent_of_startsWith parse line hs, if_neg hne, hp]
    rfl
  have hnone : (∀ t, contentOf v ≠ some t) → lineEvent parse line = none := by
    intro h
    rw [hline]
    cases hc : contentOf v with
    | none => rfl
    | some t => exact absurd hc (h t)
  refine ⟨fun t => by rw [hline, contentOf_eq_some_iff], fun h => ?_, fun members hv hm => ?_,
    fun members w hv hm hw => ?_⟩
  · apply hnone
    intro t ht
    obtain ⟨members, hv, _⟩ := (contentOf_eq_some_iff v t).mp ht
    exact h members hv
  · apply hnone
    intro t ht
    obtain ⟨members2, hv2, hm2⟩ := (contentOf_eq_some_iff v t).mp ht
    rw [hv] at hv2
    cases hv2
    rw [hm] at hm2
    cases hm2
  · apply hnone
    intro t ht
    obtain ⟨members2, hv2, hm2⟩ := (contentOf_eq_some_iff v t).mp ht
    rw [hv] at hv2
    cases hv2
    rw [hm] at hm2
    cases hm2
    exact hw t rfl

theorem content_extraction_witness :
    startsWith "data: \x7b\"other\":\"x\"\x7d" "data:" = true ∧
    jsTrim (slice "data: \x7b\"other\":\"x\"\x7d" 5) ≠ "" ∧
    jsonParse (jsTrim (slice "data: \x7b\"other\":\"x\"\x7d" 5)) =
      some (JVal.obj [("other", JVal.str "x")]) ∧
    lineEvent jsonParse "data: \x7b\"other\":\"x\"\x7d" = none :=
  ⟨by decide, by decide, by rfl,
    (content_extraction jsonParse "data: \x7b\"other\":\"x\"\x7d"
      (JVal.obj [("other", JVal.str "x")]) (by decide) (by decide) (by rfl)).2.2.1
      [("other", JVal.str "x")] rfl (by rfl)⟩

/-! ## Output accumulator -/

/-- C6: `resetOutput` and `appendOutput` keep the displayed output equal to
`state.latestText`; `appendOutput` extends the running text by its argument;
and after any number `k` of the calls `appendOutput t1`, ..., `appendOutput tn`
made from `resetOutput ()` the running text is `t1 ++ ... ++ tk` in call order
and the displayed output is that whole text. -/
theorem output_accumulator :
    (∀ p : Page, (resetOutput p).latestText = "" ∧
      (resetOutput p).output = (resetOutput p).latestText) ∧
    (∀ (p : Page) (t : String), (appendOutput p t).latestText = p.latestText ++ t ∧
      (appendOutput p t).output = (appendOutput p t).latestText) ∧
    (∀ (p : Page) (ts : List String) (k : Nat),
      ((ts.take k).foldl appendOutput (resetOutput p)).latestText = concatText (ts.take k) ∧
      ((ts.take k).foldl appendOutput (resetOutput p)).output =
        ((ts.take k).foldl appendOutput (resetOutput p)).latestText) := by
  refine ⟨fun p => ⟨rfl, rfl⟩, fun p t => ⟨rfl, rfl⟩, fun p ts k => ⟨?_, ?_⟩⟩
  · rw [foldl_appendOutput_latestText]
    simp [resetOutput]
  · exact foldl_appendOutput_output _ _ rfl

/-! ## Fragmentation of the stream -/

/-- C10: when every fragment but the last ends with `\n`, processing the
fragments one after another appends the same texts, in the same order, as
processing their concatenation as one chunk. -/
theorem line_aligned_fragmentation (parse : String → Option JVal) (fs : List String)
    (last : String) (h : ∀ f ∈ fs, endsWithLF f = true) :
    streamEvents parse (fs ++ [last]) = chunkEvents parse (concatText (fs ++ [last])) :=
  streamEvents_line_aligned parse fs last h

theorem line_aligned_fragmentation_witness :
    (∀ f ∈ ["data: \x7b\"content\":\"Hi\"\x7d\r\n", "\n"], endsWithLF f = true) ∧
    streamEvents jsonParse
        (["data: \x7b\"content\":\"Hi\"\x7d\r\n", "\n"] ++ ["data: \x7b\"content\":\" there\"\x7d"]) =
      chunkEvents jsonParse
        (concatText (["data: \x7b\"content\":\"Hi\"\x7d\r\n", "\n"] ++
          ["data: \x7b\"content\":\" there\"\x7d"])) :=
  ⟨by decide, line_aligned_fragmentation jsonParse _ _ (by decide)⟩

/-- C1 (as stated, refuted): the two deliveries of the end-to-end example, the
second starting in the middle of a line, append only `Hi`, while their
concatenation delivered whole appends `Hi` and ` there`. -/
theorem chunk_boundary_midline_counterexample :
    streamEvents jsonParse
        ["data: \x7b\"content\":\"Hi\"\x7d\n\nda", "ta: \x7b\"content\":\" there\"\x7d\n\n"] = ["Hi"] ∧
    streamEvents jsonParse
        ["data: \x7b\"content\":\"Hi\"\x7d\n\nda" ++ "ta: \x7b\"content\":\" there\"\x7d\n\n"] =
      ["Hi", " there"] ∧
    (readLoop jsonParse loadedPage
        ["data: \x7b\"content\":\"Hi\"\x7d\n\nda", "ta: \x7b\"content\":\" there\"\x7d\n\n"]).latestText
      = "Hi" ∧
    (readLoop jsonParse loadedPage
        ["data: \x7b\"content\":\"Hi\"\x7d\n\nda" ++ "ta: \x7b\"content\":\" there\"\x7d\n\n"]).latestText
      = "Hi there" := by
  decide

/-- C1 (amended): for every text and every way of splitting it into fragments
in which each fragment but the last ends with a line terminator, feeding the
fragments one after another to the chunk loop appends the same texts in the
same order, and leaves the same page, as feeding the whole text as one
chunk. -/
theorem chunk_boundary_invariance_at_line_ends (parse : String → Option JVal) (p : Page)
    (fs : List String) (last : String) (h : ∀ f ∈ fs, endsWithLF f = true) :
    streamEvents parse (fs ++ [last]) = streamEvents parse [concatText (fs ++ [last])] ∧
    readLoop parse p (fs ++ [last]) = readLoop parse p [concatText (fs ++ [last])] := by
  have hev := streamEvents_line_aligned parse fs last h
  refine ⟨?_, ?_⟩
  · rw [streamEvents_singleton, hev]
  · rw [readLoop_eq, readLoop_eq, streamEvents_singleton, hev]

theorem chunk_boundary_invariance_at_line_ends_witness :
    (∀ f ∈ ["data: \x7b\"content\":\"Hi\"\x7d\n\n"], endsWithLF f = true) ∧
    (readLoop jsonParse loadedPage
        (["data: \x7b\"content\":\"Hi\"\x7d\n\n"] ++ ["data: \x7b\"content\":\" there\"\x7d\n\n"])).latestText
      = "Hi there" ∧
    readLoop jsonParse loadedPage
        (["data: \x7b\"content\":\"Hi\"\x7d\n\n"] ++ ["data: \x7b\"content\":\" there\"\x7d\n\n"]) =
      readLoop jsonParse loadedPage
        [concatText (["data: \x7b\"content\":\"Hi\"\x7d\n\n"] ++
          ["data: \x7b\"content\":\" there\"\x7d\n\n"])] :=
  ⟨by decide, by decide,
    (chunk_boundary_invariance_at_line_ends jsonParse loadedPage _ _ (by decide)).2⟩

/-! ## Malformed lines -/

theorem lineEvent_of_parse_none (parse : String → Option JVal) (line : String)
    (h : parse (jsTrim (slice line 5)) = none) : lineEvent parse line = none := by
  unfold lineEvent
  split
  · rfl
  · split
    · rfl
    · simp only
      split
      · rfl
      · rw [h]

theorem splitLines_terminated_cons (l rest : String) (h : '\n' ∉ l.data) :
    splitLines (l ++ "\n" ++ rest) = String.mk (stripCR l.data) :: splitLines rest := by
  unfold splitLines
  have : (l ++ "\n" ++ rest).data = l.data ++ '\n' :: rest.data := by
    simp [String.data_append]
  rw [this, splitChars_line _ _ h]
  rfl

theorem chunkEvents_terminated_cons (parse : String → Option JVal) (l rest : String)
    (h : '\n' ∉ l.data) :
    chunkEvents parse (l ++ "\n" ++ rest) =
      (lineEvent parse l).toList ++ chunkEvents parse rest := by
  unfold chunkEvents
  rw [splitLines_terminated_cons l rest h, List.filterMap_cons, lineEvent_stripCR]
  have : (String.mk l.data) = l := rfl
  rw [this]
  cases lineEvent parse l <;> rfl

theorem chunkEvents_empty (parse : String → Option JVal) : chunkEvents parse "" = [] := by
  unfold chunkEvents
  have : splitLines "" = [""] := by decide
  rw [this]
  simp [List.filterMap, lineEvent_empty]

theorem chunkEvents_terminatedLines (parse : String → Option JVal) (lines : List String)
    (h : ∀ l ∈ lines, '\n' ∉ l.data) :
    chunkEvents parse (terminatedLines lines) = lines.filterMap (lineEvent parse) := by
  induction lines with
  | nil => exact chunkEvents_empty parse
  | cons l ls ih =>
    have hl : '\n' ∉ l.data := h l (by simp)
    have hls : ∀ x ∈ ls, '\n' ∉ x.data := fun x hx => h x (by simp [hx])
    have hc : terminatedLines (l :: ls) = l ++ "\n" ++ terminatedLines ls := rfl
    rw [hc, chunkEvents_terminated_cons parse l _ hl, ih hls, List.filterMap_cons]
    cases lineEvent parse l <;> rfl

theorem doStream_ok_done (parse : String → Option JVal) (p : Page) (chatId : Option JVal)
    (message : String) (status : Nat) (text : Settled String) (chunks : List String)
    (hok : isOk status = true) :
    (doStream parse p chatId message
      (.resolved ⟨status, text, some ⟨chunks, .resolved ()⟩⟩)).2 = none ∧
    (doStream parse p chatId message
      (.resolved ⟨status, text, some ⟨chunks, .resolved ()⟩⟩)).1.latestText =
        p.latestText ++ concatText (streamEvents parse chunks) := by
  simp only [doStream, await, hok, Bool.not_true, Bool.false_eq_true, ↓reduceIte, true_and]
  rw [readLoop_eq, foldl_appendOutput_latestText]
  rfl

/-- C5: a chunk made of the terminated lines `L1`, `M`, `L2`, where `L1` and
`L2` append `c1` and `c2` and `M` is a `data:` line whose payload does not
decode, appends exactly `c1` then `c2`, and `doStream` receiving it returns
without throwing; in general a line whose payload does not decode appends
nothing, and a chunk of terminated lines appends what each of its lines
appends on its own, whatever the other lines are. -/
theorem malformed_line_resilience (parse : String → Option JVal) (L1 M L2 c1 c2 : String)
    (n1 : '\n' ∉ L1.data) (nM : '\n' ∉ M.data) (n2 : '\n' ∉ L2.data)
    (h1 : lineEvent parse L1 = some c1) (h2 : lineEvent parse L2 = some c2)
    (hM : startsWith M "data:" = true) (hbad : parse (jsTrim (slice M 5)) = none) :
    chunkEvents parse (L1 ++ "\n" ++ M ++ "\n" ++ L2 ++ "\n") = [c1, c2] ∧
    (∀ (p : Page) (chatId : Option JVal) (message : String) (status : Nat)
        (text : Settled String), isOk status = true →
      (doStream parse p chatId message
        (.resolved ⟨status, text,
          some ⟨[L1 ++ "\n" ++ M ++ "\n" ++ L2 ++ "\n"], .resolved ()⟩⟩)).2 = none ∧
      (doStream parse p chatId message
        (.resolved ⟨status, text,
          some ⟨[L1 ++ "\n" ++ M ++ "\n" ++ L2 ++ "\n"], .resolved ()⟩⟩)).1.latestText =
        p.latestText ++ c1 ++ c2) ∧
    (∀ line : String, parse (jsTrim (slice line 5)) = none → lineEvent parse line = none) ∧
    (∀ lines : List String, (∀ l ∈ lines, '\n' ∉ l.data) →
      chunkEvents parse (terminatedLines lines) = lines.filterMap (lineEvent parse)) := by
  have hchunk : L1 ++ "\n" ++ M ++ "\n" ++ L2 ++ "\n" = terminatedLines [L1, M, L2] := by
    simp [terminatedLines, concatText, String.append_assoc]
  have hev : chunkEvents parse (L1 ++ "\n" ++ M ++ "\n" ++ L2 ++ "\n") = [c1, c2] := by
    rw [hchunk, chunkEvents_terminatedLines]
    · simp [List.filterMap, h1, h2, lineEvent_of_parse_none parse M hbad]
    · intro l hl
      simp only [List.mem_cons, List.mem_singleton, List.not_mem_nil, or_false] at hl
      rcases hl with rfl | rfl | rfl <;> assumption
  refine ⟨hev, fun p chatId message status text hok => ?_,
    fun line h => lineEvent_of_parse_none parse line h,
    fun lines h => chunkEvents_terminatedLines parse lines h⟩
  obtain ⟨hd1, hd2⟩ := doStream_ok_done parse p chatId message status text
    [L1 ++ "\n" ++ M ++ "\n" ++ L2 ++ "\n"] hok
  refine ⟨hd1, ?_⟩
  rw [hd2, streamEvents_singleton, hev]
  simp [concatText, String.append_assoc]

theorem malformed_line_resilience_witness :
    chunkEvents jsonParse
      ("data: \x7b\"content\":\"a\"\x7d" ++ "\n" ++ "data: \x7bnot json" ++ "\n" ++
        "data: \x7b\"content\":\"b\"\x7d\r" ++ "\n") = ["a", "b"] :=
  (malformed_line_resilience jsonParse "data: \x7b\"content\":\"a\"\x7d" "data: \x7bnot json"
    "data: \x7b\"content\":\"b\"\x7d\r" "a" "b" (by decide) (by decide) (by decide) (by decide)
    (by decide) (by decide) (by rfl)).1

/-! ## The submit handler -/

theorem foldl_appendOutput_frame (ts : List String) (p : Page) :
    (ts.foldl appendOutput p).status = p.status ∧ (ts.foldl appendOutput p).log = p.log ∧
    (ts.foldl appendOutput p).fetched = p.fetched ∧
    (ts.foldl appendOutput p).controller = p.controller ∧
    (ts.foldl appendOutput p).aborted = p.aborted := by
  induction ts generalizing p with
  | nil => exact ⟨rfl, rfl, rfl, rfl, rfl⟩
  | cons t ts ih => exact ih (appendOutput p t)

theorem readLoop_frame (parse : String → Option JVal) (chunks : List String) (p : Page) :
    (readLoop parse p chunks).status = p.status ∧ (readLoop parse p chunks).log = p.log ∧
    (readLoop parse p chunks).fetched = p.fetched ∧
    (readLoop parse p chunks).controller = p.controller ∧
    (readLoop parse p chunks).aborted = p.aborted := by
  rw [readLoop_eq]
  exact foldl_appendOutput_frame _ p

theorem cancelClick_frame (p : Page) :
    (cancelClick p).log = p.log ∧ (cancelClick p).fetched = p.fetched ∧
    (cancelClick p).latestText = p.latestText ∧ (cancelClick p).output = p.output := by
  unfold cancelClick
  cases p.controller <;> exact ⟨rfl, rfl, rfl, rfl⟩

theorem await_frame {α : Type} (p : Page) (s : Settled α) :
    (await p s).1.log = p.log ∧ (await p s).1.fetched = p.fetched ∧
    (await p s).1.latestText = p.latestText ∧ (await p s).1.output = p.output := by
  cases s with
  | resolved v => exact ⟨rfl, rfl, rfl, rfl⟩
  | rejected e => exact ⟨rfl, rfl, rfl, rfl⟩
  | aborted e => exact cancelClick_frame p

theorem doStream_fetched (parse : String → Option JVal) (p : Page) (chatId : Option JVal)
    (message : String) (send : Settled StreamResponse) :
    (doStream parse p chatId message send).1.fetched =
      p.fetched ++ [Request.chatMessage chatId message] := by
  unfold doStream
  simp only
  cases send with
  | rejected e => rfl
  | aborted e => exact (cancelClick_frame _).2.1
  | resolved resp =>
    simp only [await]
    split
    · cases htext : resp.text with
      | resolved t => rfl
      | rejected e => rfl
      | aborted e => exact (cancelClick_frame _).2.1
    · cases hbody : resp.body with
      | none => rfl
      | some body =>
        obtain ⟨chunks, ending⟩ := body
        cases ending with
        | resolved u => simp only [setStatus]; exact (readLoop_frame parse _ _).2.2.1
        | rejected e => simp only [setStatus]; exact (readLoop_frame parse _ _).2.2.1
        | aborted e =>
          simp only [setStatus]
          rw [(cancelClick_frame _).2.1]
          exact (readLoop_frame parse _ _).2.2.1

theorem tryBlock_eq_of_openSucceeds (parse : String → Option JVal) (p : Page)
    (message : String) (sc : Scenario) (h : openSucceeds sc = true) :
    ∃ p4 : Page, p4.fetched = p.fetched ++ [Request.openChat] ∧ p4.log = p.log ∧
      p4.latestText = p.latestText ∧ p4.output = p.output ∧
      tryBlock parse p message sc =
        (match doStream parse p4 (sessionId sc) message sc.sendFetch with
          | (p5, some err) => (p5, some err)
          | (p5, none) => (setStatus p5 "完成", none)) := by
  unfold openSucceeds at h
  unfold sessionId
  unfold tryBlock
  cases hopen : sc.openFetch with
  | rejected e => simp [hopen] at h
  | aborted e => simp [hopen] at h
  | resolved r =>
    simp only [hopen, Bool.and_eq_true] at h
    obtain ⟨hok, hj⟩ := h
    cases hjson : r.json with
    | rejected e => simp [hjson] at hj
    | aborted e => simp [hjson] at hj
    | resolved v =>
      simp only [hjson] at hj
      cases v with
      | null => simp [JVal.member, truthy] at hj
      | bool b => simp [JVal.member, truthy] at hj
      | num n => simp [JVal.member, truthy] at hj
      | str s => simp [JVal.member, truthy] at hj
      | arr xs => simp [JVal.member, truthy] at hj
      | obj ms =>
        simp only [await, hok, hjson, hj, Bool.not_true, Bool.false_eq_true, ↓reduceIte]
        exact ⟨setStatus { p with controller := some Controller.forOpen,
                                  fetched := p.fetched ++ [Request.openChat] } "等待回复...",
          rfl, rfl, rfl, rfl, rfl⟩

theorem tryBlock_of_openSucceeds (parse : String → Option JVal) (p : Page) (message : String)
    (sc : Scenario) (h : openSucceeds sc = true) :
    (tryBlock parse p message sc).1.fetched =
      p.fetched ++ [Request.openChat, Request.chatMessage (sessionId sc) message] := by
  obtain ⟨p4, hf, _, _, _, heq⟩ := tryBlock_eq_of_openSucceeds parse p message sc h
  have hd := doStream_fetched parse p4 (sessionId sc) message sc.sendFetch
  rw [hf] at hd
  rw [heq]
  rcases hres : doStream parse p4 (sessionId sc) message sc.sendFetch with ⟨p5, _ | err⟩
  · rw [hres] at hd
    simpa [setStatus] using hd
  · rw [hres] at hd
    simpa using hd

theorem tryBlock_of_not_openSucceeds (parse : String → Option JVal) (p : Page) (message : String)
    (sc : Scenario) (h : openSucceeds sc = false) :
    ∃ (q : Page) (e : Thrown), tryBlock parse p message sc = (q, some e) ∧
      q.fetched = p.fetched ++ [Request.openChat] ∧ q.log = p.log ∧
      q.latestText = p.latestText ∧ q.output = p.output := by
  unfold openSucceeds at h
  unfold tryBlock
  cases hopen : sc.openFetch with
  | rejected e => exact ⟨_, e, rfl, rfl, rfl, rfl, rfl⟩
  | aborted e =>
    refine ⟨_, e, rfl, ?_, ?_, ?_, ?_⟩
    · exact (cancelClick_frame _).2.1
    · exact (cancelClick_frame _).1
    · exact (cancelClick_frame _).2.2.1
    · exact (cancelClick_frame _).2.2.2
  | resolved r =>
    simp only [hopen] at h
    cases hok : isOk r.status with
    | false =>
      simp only [await, hok, Bool.not_false, ↓reduceIte]
      exact ⟨_, _, rfl, rfl, rfl, rfl, rfl⟩
    | true =>
      simp only [hok, Bool.true_and] at h
      cases hjson : r.json with
      | rejected e =>
        simp only [await, hok, hjson, Bool.not_true, Bool.false_eq_true, ↓reduceIte]
        exact ⟨_, _, rfl, rfl, rfl, rfl, rfl⟩
      | aborted e =>
        simp only [await, hok, hjson, Bool.not_true, Bool.false_eq_true, ↓reduceIte]
        refine ⟨_, e, rfl, ?_, ?_, ?_, ?_⟩
        · exact (cancelClick_frame _).2.1
        · exact (cancelClick_frame _).1
        · exact (cancelClick_frame _).2.2.1
        · exact (cancelClick_frame _).2.2.2
      | resolved v =>
        simp only [hjson] at h
        cases v with
        | null =>
          simp only [await, hok, hjson, Bool.not_true, Bool.false_eq_true, ↓reduceIte]
          exact ⟨_, _, rfl, rfl, rfl, rfl, rfl⟩
        | bool b =>
          simp only [await, hok, hjson, h, Bool.not_true, Bool.not_false, Bool.false_eq_true,
            ↓reduceIte]
          exact ⟨_, _, rfl, rfl, rfl, rfl, rfl⟩
        | num n =>
          simp only [await, hok, hjson, h, Bool.not_true, Bool.not_false, Bool.false_eq_true,
            ↓reduceIte]
          exact ⟨_, _, rfl, rfl, rfl, rfl, rfl⟩
        | str s =>
          simp only [await, hok, hjson, h, Bool.not_true, Bool.not_false, Bool.false_eq_true,
            ↓reduceIte]
          exact ⟨_, _, rfl, rfl, rfl, rfl, rfl⟩
        | arr xs =>
          simp only [await, hok, hjson, h, Bool.not_true, Bool.not_false, Bool.false_eq_true,
            ↓reduceIte]
          exact ⟨_, _, rfl, rfl, rfl, rfl, rfl⟩
        | obj ms =>
          simp only [await, hok, hjson, h, Bool.not_true, Bool.not_false, Bool.false_eq_true,
            ↓reduceIte]
          exact ⟨_, _, rfl, rfl, rfl, rfl, rfl⟩

theorem submit_fetched (parse : String → Option JVal) (p : Page) (sc : Scenario)
    (hq : jsTrim sc.query ≠ "") :
    (submit parse p sc).fetched =
      (tryBlock parse (setStatus (resetOutput p) "打开会话...") (jsTrim sc.query) sc).1.fetched := by
  unfold submit
  simp only [hq, ↓reduceIte]
  rcases tryBlock parse (setStatus (resetOutput p) "打开会话...") (jsTrim sc.query) sc with
    ⟨q, _ | e⟩ <;> rfl

theorem submit_of_thrown (parse : String → Option JVal) (p : Page) (sc : Scenario)
    (hq : jsTrim sc.query ≠ "") (q : Page) (e : Thrown)
    (h : tryBlock parse (setStatus (resetOutput p) "打开会话...") (jsTrim sc.query) sc =
      (q, some e)) :
    (submit parse p sc).status = "错误" ∧
    (submit parse p sc).log = q.log ++ ("Error: " ++ errorText e ++ "\n") ∧
    (submit parse p sc).latestText = q.latestText ∧
    (submit parse p sc).output = q.output := by
  unfold submit
  simp only [hq, ↓reduceIte, h]
  exact ⟨rfl, rfl, rfl, rfl⟩

theorem errorText_newError (m : String) (h : m ≠ "") : errorText (newError m) = m := by
  simp [errorText, newError, h]

theorem append_ne_empty (a b : String) (h : a ≠ "") : a ++ b ≠ "" := by
  intro h0
  apply h
  have := congrArg String.data h0
  rw [String.data_append] at this
  apply String.ext
  have h2 : a.data ++ b.data = [] := this
  exact (List.append_eq_nil.mp h2).1

theorem doStream_send_rejected (parse : String → Option JVal) (p : Page)
    (chatId : Option JVal) (message : String) (e : Thrown) :
    ∃ q : Page, doStream parse p chatId message (.rejected e) = (q, some e) ∧
      q.log = p.log ∧ q.latestText = p.latestText ∧ q.output = p.output :=
  ⟨_, rfl, rfl, rfl, rfl⟩

theorem doStream_not_ok (parse : String → Option JVal) (p : Page) (chatId : Option JVal)
    (message : String) (s : StreamResponse) (t : String) (hok : isOk s.status = false)
    (ht : s.text = .resolved t) :
    ∃ q : Page, doStream parse p chatId message (.resolved s) =
        (q, some (newError ("HTTP " ++ toString s.status))) ∧
      q.log = p.log ++ ("[stream] status=" ++ toString s.status ++ " body=" ++ t ++ "\n") ∧
      q.latestText = p.latestText ∧ q.output = p.output := by
  unfold doStream
  simp only [await, hok, ht, Bool.not_false, ↓reduceIte]
  exact ⟨_, rfl, rfl, rfl, rfl⟩

theorem doStream_stream_rejected (parse : String → Option JVal) (p : Page)
    (chatId : Option JVal) (message : String) (s : StreamResponse) (b : StreamBody)
    (e : Thrown) (hok : isOk s.status = true) (hb : s.body = some b)
    (he : b.ending = .rejected e) :
    ∃ q : Page, doStream parse p chatId message (.resolved s) = (q, some e) ∧
      q.log = p.log ∧
      q.latestText = p.latestText ++ concatText (streamEvents parse b.chunks) ∧
      (p.output = p.latestText → q.output = q.latestText) := by
  unfold doStream
  simp only [await, hok, hb, he, Bool.not_true, Bool.false_eq_true, ↓reduceIte]
  refine ⟨_, rfl, ?_, ?_, ?_⟩
  · exact (readLoop_frame parse _ _).2.1
  · rw [readLoop_eq, foldl_appendOutput_latestText]
    rfl
  · intro h
    rw [readLoop_eq]
    exact foldl_appendOutput_output _ _ h

/-- C7: in an exchange that starts (the query is not blank), `doStream` is
invoked, that is, a message request follows the open request, exactly when the
open response has a success status and the `data` member of its JSON body is
truthy; the request then carries that member and the trimmed query.  In every
other case only the open request is made, the status shown is the failure
status and the log holds one error line. -/
theorem open_failure_short_circuit (parse : String → Option JVal) (p : Page) (sc : Scenario)
    (hq : jsTrim sc.query ≠ "") :
    ((∃ id msg, (submit parse p sc).fetched =
        p.fetched ++ [Request.openChat, Request.chatMessage id msg]) ↔
      openSucceeds sc = true) ∧
    (openSucceeds sc = true → (submit parse p sc).fetched =
      p.fetched ++ [Request.openChat, Request.chatMessage (sessionId sc) (jsTrim sc.query)]) ∧
    (openSucceeds sc = false →
      (submit parse p sc).fetched = p.fetched ++ [Request.openChat] ∧
      (submit parse p sc).status = "错误" ∧
      ∃ e : Thrown, (submit parse p sc).log = "Error: " ++ errorText e ++ "\n") := by
  have hyes : openSucceeds sc = true → (submit parse p sc).fetched =
      p.fetched ++ [Request.openChat, Request.chatMessage (sessionId sc) (jsTrim sc.query)] := by
    intro h
    rw [submit_fetched parse p sc hq, tryBlock_of_openSucceeds parse _ _ sc h]
    rfl
  have hno : openSucceeds sc = false →
      (submit parse p sc).fetched = p.fetched ++ [Request.openChat] ∧
      (submit parse p sc).status = "错误" ∧
      ∃ e : Thrown, (submit parse p sc).log = "Error: " ++ errorText e ++ "\n" := by
    intro h
    obtain ⟨q, e, htry, hf, hlog, _, _⟩ :=
      tryBlock_of_not_openSucceeds parse (setStatus (resetOutput p) "打开会话...")
        (jsTrim sc.query) sc h
    obtain ⟨hst, hl, _, _⟩ := submit_of_thrown parse p sc hq q e htry
    refine ⟨?_, hst, e, ?_⟩
    · rw [submit_fetched parse p sc hq, htry]
      exact hf
    · rw [hl, hlog]
      simp [setStatus, resetOutput]
  refine ⟨⟨?_, fun h => ⟨_, _, hyes h⟩⟩, hyes, hno⟩
  rintro ⟨id, msg, hf⟩
  cases hs : openSucceeds sc with
  | true => rfl
  | false =>
    exfalso
    have h1 := (hno hs).1
    rw [h1] at hf
    have := congrArg List.length hf
    simp at this

theorem open_failure_short_circuit_witness :
    jsTrim (openedWith (.obj [("data", .str "")])).query ≠ "" ∧
    openSucceeds (openedWith (.obj [("data", .str "")])) = false ∧
    (submit jsonParse loadedPage (openedWith (.obj [("data", .str "")]))).fetched =
      loadedPage.fetched ++ [Request.openChat] ∧
    (submit jsonParse loadedPage (openedWith (.obj [("data", .str "")]))).status = "错误" :=
  ⟨by decide, by decide,
    ((open_failure_short_circuit jsonParse loadedPage (openedWith (.obj [("data", .str "")]))
      (by decide)).2.2 (by decide)).1,
    ((open_failure_short_circuit jsonParse loadedPage (openedWith (.obj [("data", .str "")]))
      (by decide)).2.2 (by decide)).2.1⟩

/-- C8 (the code at the failing inputs): when the user clicks cancel while the
open request is pending, or while the first read of the stream is pending, the
cancel handler shows the cancelled status and nothing is appended to the
output, but the handler of the rejected wait then replaces the status by the
failure status and appends an error line to the log. -/
theorem cancel_before_data_ends_in_error :
    (tryBlock jsonParse (setStatus (resetOutput loadedPage) "打开会话...") "hello"
      cancelDuringOpen).1.status = "已取消" ∧
    (submit jsonParse loadedPage cancelDuringOpen).status = "错误" ∧
    (submit jsonParse loadedPage cancelDuringOpen).log = "Error: The user aborted a request.\n" ∧
    (submit jsonParse loadedPage cancelDuringOpen).aborted = [Controller.forOpen] ∧
    (submit jsonParse loadedPage cancelDuringOpen).latestText = "" ∧
    (tryBlock jsonParse (setStatus (resetOutput loadedPage) "打开会话...") "hello"
      cancelBeforeFirstChunk).1.status = "已取消" ∧
    (submit jsonParse loadedPage cancelBeforeFirstChunk).status = "错误" ∧
    (submit jsonParse loadedPage cancelBeforeFirstChunk).log =
      "Error: The user aborted a request.\n" ∧
    (submit jsonParse loadedPage cancelBeforeFirstChunk).aborted = [Controller.forStream] ∧
    (submit jsonParse loadedPage cancelBeforeFirstChunk).latestText = "" := by
  decide

theorem tryBlock_status_of_return (parse : String → Option JVal) (p : Page) (message : String)
    (sc : Scenario) (q : Page) (h : tryBlock parse p message sc = (q, none)) :
    q.status = "完成" := by
  by_cases hs : openSucceeds sc = true
  · obtain ⟨p4, _, _, _, _, heq⟩ := tryBlock_eq_of_openSucceeds parse p message sc hs
    rw [heq] at h
    rcases hres : doStream parse p4 (sessionId sc) message sc.sendFetch with ⟨p5, _ | err⟩
    · rw [hres] at h
      simp only [Prod.mk.injEq, and_true] at h
      rw [← h]
      rfl
    · rw [hres] at h
      simp at h
  · have hs2 : openSucceeds sc = false := by simpa using hs
    obtain ⟨q2, e, htry, _⟩ := tryBlock_of_not_openSucceeds parse p message sc hs2
    rw [htry] at h
    simp at h

/-- Whatever happens in an exchange that starts, cancellation included, the
status shown at its end is the completion status or the failure status. -/
theorem final_status_is_done_or_error (parse : String → Option JVal) (p : Page) (sc : Scenario)
    (hq : jsTrim sc.query ≠ "") :
    (submit parse p sc).status = "完成" ∨ (submit parse p sc).status = "错误" := by
  rcases hres : tryBlock parse (setStatus (resetOutput p) "打开会话...") (jsTrim sc.query) sc with
    ⟨q, _ | e⟩
  · left
    have := tryBlock_status_of_return parse _ _ sc q hres
    unfold submit
    simp only [hq, ↓reduceIte, hres]
    exact this
  · right
    exact (submit_of_thrown parse p sc hq q e hres).1

/-! ## Terminal failures -/

theorem failedWith_of_thrown (parse : String → Option JVal) (p : Page) (sc : Scenario)
    (hq : jsTrim sc.query ≠ "") (q : Page) (e : Thrown) (shown log : String)
    (h : tryBlock parse (setStatus (resetOutput p) "打开会话...") (jsTrim sc.query) sc =
      (q, some e))
    (hlog : q.log = log) (ht : q.latestText = shown) (ho : q.output = shown) :
    FailedWith (submit parse p sc) shown (log ++ ("Error: " ++ errorText e ++ "\n")) := by
  obtain ⟨h1, h2, h3, h4⟩ := submit_of_thrown parse p sc hq q e h
  exact ⟨h1, by rw [h2, hlog], by rw [h3, ht], by rw [h4, ho]⟩

theorem failedWith_of_send (parse : String → Option JVal) (p : Page) (sc : Scenario)
    (hq : jsTrim sc.query ≠ "") (hopen : openSucceeds sc = true) (e : Thrown)
    (shown log : String)
    (h : ∀ p4 : Page, p4.log = "" → p4.latestText = "" → p4.output = "" →
      ∃ q : Page, doStream parse p4 (sessionId sc) (jsTrim sc.query) sc.sendFetch = (q, some e) ∧
        q.log = log ∧ q.latestText = shown ∧ q.output = shown) :
    FailedWith (submit parse p sc) shown (log ++ ("Error: " ++ errorText e ++ "\n")) := by
  obtain ⟨p4, _, hl, ht, ho, heq⟩ := tryBlock_eq_of_openSucceeds parse
    (setStatus (resetOutput p) "打开会话...") (jsTrim sc.query) sc hopen
  obtain ⟨q, hd, hql, hqt, hqo⟩ := h p4 hl ht ho
  rw [hd] at heq
  exact failedWith_of_thrown parse p sc hq q e shown log heq hql hqt hqo

theorem tryBlock_open_rejected (parse : String → Option JVal) (p : Page) (message : String)
    (sc : Scenario) (e : Thrown) (h : sc.openFetch = .rejected e) :
    ∃ q : Page, tryBlock parse p message sc = (q, some e) ∧ q.log = p.log ∧
      q.latestText = p.latestText ∧ q.output = p.output := by
  unfold tryBlock
  simp only [h, await]
  exact ⟨_, rfl, rfl, rfl, rfl⟩

theorem tryBlock_open_not_ok (parse : String → Option JVal) (p : Page) (message : String)
    (sc : Scenario) (r : OpenResponse) (h : sc.openFetch = .resolved r)
    (hok : isOk r.status = false) :
    ∃ q : Page, tryBlock parse p message sc =
        (q, some (newError ("open 失败: " ++ toString r.status))) ∧ q.log = p.log ∧
      q.latestText = p.latestText ∧ q.output = p.output := by
  unfold tryBlock
  simp only [h, await, hok, Bool.not_false, ↓reduceIte]
  exact ⟨_, rfl, rfl, rfl, rfl⟩

theorem tryBlock_json_rejected (parse : String → Option JVal) (p : Page) (message : String)
    (sc : Scenario) (r : OpenResponse) (e : Thrown) (h : sc.openFetch = .resolved r)
    (hok : isOk r.status = true) (hj : r.json = .rejected e) :
    ∃ q : Page, tryBlock parse p message sc = (q, some e) ∧ q.log = p.log ∧
      q.latestText = p.latestText ∧ q.output = p.output := by
  unfold tryBlock
  simp only [h, await, hok, hj, Bool.not_true, Bool.false_eq_true, ↓reduceIte]
  exact ⟨_, rfl, rfl, rfl, rfl⟩

theorem tryBlock_missing_id (parse : String → Option JVal) (p : Page) (message : String)
    (sc : Scenario) (r : OpenResponse) (v : JVal) (h : sc.openFetch = .resolved r)
    (hok : isOk r.status = true) (hj : r.json = .resolved v) (hv : v ≠ JVal.null)
    (hid : truthy (v.member "data") = false) :
    ∃ q : Page, tryBlock parse p message sc = (q, some (newError "未返回 chat_id")) ∧
      q.log = p.log ∧ q.latestText = p.latestText ∧ q.output = p.output := by
  unfold tryBlock
  cases v with
  | null => exact absurd rfl hv
  | bool b =>
    simp only [h, await, hok, hj, hid, Bool.not_true, Bool.not_false, Bool.false_eq_true,
      ↓reduceIte]
    exact ⟨_, rfl, rfl, rfl, rfl⟩
  | num n =>
    simp only [h, await, hok, hj, hid, Bool.not_true, Bool.not_false, Bool.false_eq_true,
      ↓reduceIte]
    exact ⟨_, rfl, rfl, rfl, rfl⟩
  | str s =>
    simp only [h, await, hok, hj, hid, Bool.not_true, Bool.not_false, Bool.false_eq_true,
      ↓reduceIte]
    exact ⟨_, rfl, rfl, rfl, rfl⟩
  | arr xs =>
    simp only [h, await, hok, hj, hid, Bool.not_true, Bool.not_false, Bool.false_eq_true,
      ↓reduceIte]
    exact ⟨_, rfl, rfl, rfl, rfl⟩
  | obj ms =>
    simp only [h, await, hok, hj, hid, Bool.not_true, Bool.not_false, Bool.false_eq_true,
      ↓reduceIte]
    exact ⟨_, rfl, rfl, rfl, rfl⟩

theorem doStream_text_rejected (parse : String → Option JVal) (p : Page)
    (chatId : Option JVal) (message : String) (s : StreamResponse) (e : Thrown)
    (hok : isOk s.status = false) (ht : s.text = .rejected e) :
    ∃ q : Page, doStream parse p chatId message (.resolved s) = (q, some e) ∧
      q.log = p.log ∧ q.latestText = p.latestText ∧ q.output = p.output := by
  unfold doStream
  simp only [await, hok, ht, Bool.not_false, ↓reduceIte]
  exact ⟨_, rfl, rfl, rfl, rfl⟩

theorem reset_log (p : Page) : (setStatus (resetOutput p) "打开会话...").log = "" ∧
    (setStatus (resetOutput p) "打开会话...").latestText = "" ∧
    (setStatus (resetOutput p) "打开会话...").output = "" := ⟨rfl, rfl, rfl⟩

theorem tryBlock_json_null (parse : String → Option JVal) (p : Page) (message : String)
    (sc : Scenario) (r : OpenResponse) (h : sc.openFetch = .resolved r)
    (hok : isOk r.status = true) (hj : r.json = .resolved JVal.null) :
    ∃ q : Page, tryBlock parse p message sc = (q, some nullReadError) ∧ q.log = p.log ∧
      q.latestText = p.latestText ∧ q.output = p.output := by
  unfold tryBlock
  simp only [h, await, hok, hj, Bool.not_true, Bool.false_eq_true, ↓reduceIte]
  exact ⟨_, rfl, rfl, rfl, rfl⟩

theorem doStream_null_body (parse : String → Option JVal) (p : Page)
    (chatId : Option JVal) (message : String) (s : StreamResponse)
    (hok : isOk s.status = true) (hb : s.body = none) :
    ∃ q : Page, doStream parse p chatId message (.resolved s) = (q, some nullBodyError) ∧
      q.log = p.log ∧ q.latestText = p.latestText ∧ q.output = p.output := by
  unfold doStream
  simp only [await, hok, hb, Bool.not_true, Bool.false_eq_true, ↓reduceIte]
  exact ⟨_, rfl, rfl, rfl, rfl⟩

theorem doStream_completes (parse : String → Option JVal) (p : Page)
    (chatId : Option JVal) (message : String) (s : StreamResponse) (b : StreamBody)
    (hok : isOk s.status = true) (hb : s.body = some b) (he : b.ending = .resolved ()) :
    ∃ q : Page, doStream parse p chatId message (.resolved s) = (q, none) ∧
      q.log = p.log ∧
      q.latestText = p.latestText ++ concatText (streamEvents parse b.chunks) ∧
      (p.output = p.latestText → q.output = q.latestText) := by
  unfold doStream
  simp only [await, hok, hb, he, Bool.not_true, Bool.false_eq_true, ↓reduceIte]
  refine ⟨_, rfl, ?_, ?_, ?_⟩
  · exact (readLoop_frame parse _ _).2.1
  · rw [readLoop_eq, foldl_appendOutput_latestText]
    rfl
  · intro h
    rw [readLoop_eq]
    exact foldl_appendOutput_output _ _ h

theorem openSucceeds_cases (sc : Scenario) (h : openSucceeds sc = true) :
    ∃ r v, sc.openFetch = .resolved r ∧ isOk r.status = true ∧ r.json = .resolved v ∧
      truthy (v.member "data") = true := by
  unfold openSucceeds at h
  cases hopen : sc.openFetch with
  | rejected e => simp [hopen] at h
  | aborted e => simp [hopen] at h
  | resolved r =>
    simp only [hopen, Bool.and_eq_true] at h
    obtain ⟨hok, hj⟩ := h
    cases hjson : r.json with
    | rejected e => simp [hjson] at hj
    | aborted e => simp [hjson] at hj
    | resolved v =>
      simp only [hjson] at hj
      exact ⟨r, v, rfl, hok, hjson, hj⟩

theorem cancelled_of_openSucceeds (sc : Scenario) (h : openSucceeds sc = true) :
    cancelled sc =
      (match sc.sendFetch with
       | .aborted _ => true
       | .rejected _ => false
       | .resolved s =>
         if isOk s.status then
           (match s.body with
            | some b => b.ending.isAborted
            | none => false)
         else s.text.isAborted) := by
  obtain ⟨r, v, hopen, hok, hjson, _⟩ := openSucceeds_cases sc h
  unfold cancelled
  simp only [hopen, hok, hjson, h, Settled.isAborted, Bool.true_and, Bool.false_or]

theorem fail_open_rejected (parse : String → Option JVal) (p : Page) (sc : Scenario)
    (hq : jsTrim sc.query ≠ "") (e : Thrown) (h : sc.openFetch = .rejected e) :
    FailedWith (submit parse p sc) "" ("Error: " ++ errorText e ++ "\n") := by
  obtain ⟨hl0, ht0, ho0⟩ := reset_log p
  obtain ⟨q, htry, hl, ht, ho⟩ := tryBlock_open_rejected parse
    (setStatus (resetOutput p) "打开会话...") (jsTrim sc.query) sc e h
  have := failedWith_of_thrown parse p sc hq q e "" "" htry (hl.trans hl0) (ht.trans ht0)
    (ho.trans ho0)
  simpa using this

theorem fail_open_not_ok (parse : String → Option JVal) (p : Page) (sc : Scenario)
    (hq : jsTrim sc.query ≠ "") (r : OpenResponse) (h : sc.openFetch = .resolved r)
    (hok : isOk r.status = false) :
    FailedWith (submit parse p sc) "" ("Error: open 失败: " ++ toString r.status ++ "\n") := by
  obtain ⟨hl0, ht0, ho0⟩ := reset_log p
  obtain ⟨q, htry, hl, ht, ho⟩ := tryBlock_open_not_ok parse
    (setStatus (resetOutput p) "打开会话...") (jsTrim sc.query) sc r h hok
  have := failedWith_of_thrown parse p sc hq q _ "" "" htry (hl.trans hl0) (ht.trans ht0)
    (ho.trans ho0)
  rw [errorText_newError _ (append_ne_empty _ _ (by decide))] at this
  simpa [String.append_assoc] using this

theorem fail_json_rejected (parse : String → Option JVal) (p : Page) (sc : Scenario)
    (hq : jsTrim sc.query ≠ "") (r : OpenResponse) (e : Thrown)
    (h : sc.openFetch = .resolved r) (hok : isOk r.status = true) (hj : r.json = .rejected e) :
    FailedWith (submit parse p sc) "" ("Error: " ++ errorText e ++ "\n") := by
  obtain ⟨hl0, ht0, ho0⟩ := reset_log p
  obtain ⟨q, htry, hl, ht, ho⟩ := tryBlock_json_rejected parse
    (setStatus (resetOutput p) "打开会话...") (jsTrim sc.query) sc r e h hok hj
  have := failedWith_of_thrown parse p sc hq q e "" "" htry (hl.trans hl0) (ht.trans ht0)
    (ho.trans ho0)
  simpa using this

theorem fail_json_null (parse : String → Option JVal) (p : Page) (sc : Scenario)
    (hq : jsTrim sc.query ≠ "") (r : OpenResponse)
    (h : sc.openFetch = .resolved r) (hok : isOk r.status = true)
    (hj : r.json = .resolved JVal.null) :
    FailedWith (submit parse p sc) "" ("Error: " ++ errorText nullReadError ++ "\n") := by
  obtain ⟨hl0, ht0, ho0⟩ := reset_log p
  obtain ⟨q, htry, hl, ht, ho⟩ := tryBlock_json_null parse
    (setStatus (resetOutput p) "打开会话...") (jsTrim sc.query) sc r h hok hj
  have := failedWith_of_thrown parse p sc hq q _ "" "" htry (hl.trans hl0) (ht.trans ht0)
    (ho.trans ho0)
  simpa using this

theorem fail_missing_id (parse : String → Option JVal) (p : Page) (sc : Scenario)
    (hq : jsTrim sc.query ≠ "") (r : OpenResponse) (v : JVal)
    (h : sc.openFetch = .resolved r) (hok : isOk r.status = true) (hj : r.json = .resolved v)
    (hv : v ≠ JVal.null) (hid : truthy (v.member "data") = false) :
    FailedWith (submit parse p sc) "" "Error: 未返回 chat_id\n" := by
  obtain ⟨hl0, ht0, ho0⟩ := reset_log p
  obtain ⟨q, htry, hl, ht, ho⟩ := tryBlock_missing_id parse
    (setStatus (resetOutput p) "打开会话...") (jsTrim sc.query) sc r v h hok hj hv hid
  have := failedWith_of_thrown parse p sc hq q _ "" "" htry (hl.trans hl0) (ht.trans ht0)
    (ho.trans ho0)
  rw [errorText_newError _ (by decide)] at this
  simpa using this

theorem fail_send_rejected (parse : String → Option JVal) (p : Page) (sc : Scenario)
    (hq : jsTrim sc.query ≠ "") (hopen : openSucceeds sc = true) (e : Thrown)
    (h : sc.sendFetch = .rejected e) :
    FailedWith (submit parse p sc) "" ("Error: " ++ errorText e ++ "\n") := by
  have := failedWith_of_send parse p sc hq hopen e "" "" (fun p4 hl ht ho => by
    rw [h]
    obtain ⟨q, hd, hql, hqt, hqo⟩ :=
      doStream_send_rejected parse p4 (sessionId sc) (jsTrim sc.query) e
    exact ⟨q, hd, hql.trans hl, hqt.trans ht, hqo.trans ho⟩)
  simpa using this

theorem fail_send_not_ok (parse : String → Option JVal) (p : Page) (sc : Scenario)
    (hq : jsTrim sc.query ≠ "") (hopen : openSucceeds sc = true) (s : StreamResponse)
    (t : String) (h : sc.sendFetch = .resolved s) (hok : isOk s.status = false)
    (htext : s.text = .resolved t) :
    FailedWith (submit parse p sc) ""
      ("[stream] status=" ++ toString s.status ++ " body=" ++ t ++ "\n" ++
        ("Error: HTTP " ++ toString s.status ++ "\n")) := by
  have := failedWith_of_send parse p sc hq hopen (newError ("HTTP " ++ toString s.status)) ""
    ("[stream] status=" ++ toString s.status ++ " body=" ++ t ++ "\n") (fun p4 hl ht ho => by
    rw [h]
    obtain ⟨q, hd, hql, hqt, hqo⟩ :=
      doStream_not_ok parse p4 (sessionId sc) (jsTrim sc.query) s t hok htext
    refine ⟨q, hd, ?_, hqt.trans ht, hqo.trans ho⟩
    rw [hql, hl]
    simp)
  rw [errorText_newError _ (append_ne_empty _ _ (by decide))] at this
  exact this

theorem fail_send_unread (parse : String → Option JVal) (p : Page) (sc : Scenario)
    (hq : jsTrim sc.query ≠ "") (hopen : openSucceeds sc = true) (s : StreamResponse)
    (e : Thrown) (h : sc.sendFetch = .resolved s) (hok : isOk s.status = false)
    (htext : s.text = .rejected e) :
    FailedWith (submit parse p sc) "" ("Error: " ++ errorText e ++ "\n") := by
  have := failedWith_of_send parse p sc hq hopen e "" "" (fun p4 hl ht ho => by
    rw [h]
    obtain ⟨q, hd, hql, hqt, hqo⟩ :=
      doStream_text_rejected parse p4 (sessionId sc) (jsTrim sc.query) s e hok htext
    exact ⟨q, hd, hql.trans hl, hqt.trans ht, hqo.trans ho⟩)
  simpa using this

theorem fail_null_body (parse : String → Option JVal) (p : Page) (sc : Scenario)
    (hq : jsTrim sc.query ≠ "") (hopen : openSucceeds sc = true) (s : StreamResponse)
    (h : sc.sendFetch = .resolved s) (hok : isOk s.status = true) (hb : s.body = none) :
    FailedWith (submit parse p sc) "" ("Error: " ++ errorText nullBodyError ++ "\n") := by
  have := failedWith_of_send parse p sc hq hopen nullBodyError "" "" (fun p4 hl ht ho => by
    rw [h]
    obtain ⟨q, hd, hql, hqt, hqo⟩ :=
      doStream_null_body parse p4 (sessionId sc) (jsTrim sc.query) s hok hb
    exact ⟨q, hd, hql.trans hl, hqt.trans ht, hqo.trans ho⟩)
  simpa using this

theorem fail_stream_rejected (parse : String → Option JVal) (p : Page) (sc : Scenario)
    (hq : jsTrim sc.query ≠ "") (hopen : openSucceeds sc = true) (s : StreamResponse)
    (b : StreamBody) (e : Thrown) (h : sc.sendFetch = .resolved s)
    (hok : isOk s.status = true) (hb : s.body = some b) (hend : b.ending = .rejected e) :
    FailedWith (submit parse p sc) (concatText (streamEvents parse b.chunks))
      ("Error: " ++ errorText e ++ "\n") := by
  have := failedWith_of_send parse p sc hq hopen e (concatText (streamEvents parse b.chunks))
    "" (fun p4 hl ht ho => by
    rw [h]
    obtain ⟨q, hd, hql, hqt, hqo⟩ :=
      doStream_stream_rejected parse p4 (sessionId sc) (jsTrim sc.query) s b e hok hb hend
    have hqt2 : q.latestText = concatText (streamEvents parse b.chunks) := by
      rw [hqt, ht]
      simp
    refine ⟨q, hd, hql.trans hl, hqt2, ?_⟩
    rw [hqo (ho.trans ht.symm), hqt2])
  simpa using this

theorem submit_completes (parse : String → Option JVal) (p : Page) (sc : Scenario)
    (hq : jsTrim sc.query ≠ "") (hopen : openSucceeds sc = true) (s : StreamResponse)
    (b : StreamBody) (h : sc.sendFetch = .resolved s) (hok : isOk s.status = true)
    (hb : s.body = some b) (hend : b.ending = .resolved ()) :
    (submit parse p sc).status = "完成" ∧ (submit parse p sc).log = "" ∧
    (submit parse p sc).latestText = concatText (streamEvents parse b.chunks) ∧
    (submit parse p sc).output = concatText (streamEvents parse b.chunks) := by
  obtain ⟨p4, _, hl, ht, ho, heq⟩ := tryBlock_eq_of_openSucceeds parse
    (setStatus (resetOutput p) "打开会话...") (jsTrim sc.query) sc hopen
  obtain ⟨hl0, ht0, ho0⟩ := reset_log p
  obtain ⟨q, hd, hql, hqt, hqo⟩ :=
    doStream_completes parse p4 (sessionId sc) (jsTrim sc.query) s b hok hb hend
  rw [← h] at hd
  rw [hd] at heq
  have hqlog : q.log = "" := by
    rw [hql, hl, hl0]
  have hqt2 : q.latestText = concatText (streamEvents parse b.chunks) := by
    rw [hqt, ht, ht0]
    simp
  have hqo2 : q.output = concatText (streamEvents parse b.chunks) := by
    rw [hqo ((ho.trans ho0).trans (ht.trans ht0).symm), hqt2]
  unfold submit
  simp only [hq, ↓reduceIte, heq]
  exact ⟨rfl, hqlog, hqt2, hqo2⟩

theorem failure_of_not_completes (parse : String → Option JVal) (p : Page) (sc : Scenario)
    (hq : jsTrim sc.query ≠ "") (hc : cancelled sc = false) (hn : completes sc = false) :
    ∃ e : Thrown, FailedWith (submit parse p sc)
      (concatText (streamEvents parse (received sc)))
      (statusLine sc ++ ("Error: " ++ errorText e ++ "\n")) := by
  by_cases hopen : openSucceeds sc = true
  · rw [cancelled_of_openSucceeds sc hopen] at hc
    unfold completes at hn
    unfold received statusLine
    simp only [hopen, ↓reduceIte, Bool.true_and] at hn ⊢
    cases hsend : sc.sendFetch with
    | rejected e =>
      refine ⟨e, ?_⟩
      have := fail_send_rejected parse p sc hq hopen e hsend
      simpa [streamEvents, concatText] using this
    | aborted e => simp [hsend] at hc
    | resolved s =>
      simp only [hsend] at hc hn
      cases hok : isOk s.status with
      | false =>
        simp only [hok, Bool.false_eq_true, ↓reduceIte] at hc
        cases htext : s.text with
        | resolved t =>
          refine ⟨newError ("HTTP " ++ toString s.status), ?_⟩
          have := fail_send_not_ok parse p sc hq hopen s t hsend hok htext
          rw [errorText_newError _ (append_ne_empty _ _ (by decide))]
          simpa [streamEvents, concatText, hok, htext, String.append_assoc] using this
        | rejected e =>
          refine ⟨e, ?_⟩
          have := fail_send_unread parse p sc hq hopen s e hsend hok htext
          simpa [streamEvents, concatText, hok, htext] using this
        | aborted e => simp [htext, Settled.isAborted] at hc
      | true =>
        simp only [hok, ↓reduceIte, Bool.true_and] at hc hn
        cases hb : s.body with
        | none =>
          refine ⟨nullBodyError, ?_⟩
          have := fail_null_body parse p sc hq hopen s hsend hok hb
          simpa [streamEvents, concatText, hok, hb] using this
        | some b =>
          simp only [hb] at hc hn
          cases hend : b.ending with
          | resolved u => simp [hend] at hn
          | aborted e => simp [hend, Settled.isAborted] at hc
          | rejected e =>
            refine ⟨e, ?_⟩
            have := fail_stream_rejected parse p sc hq hopen s b e hsend hok hb hend
            simpa [hok, hb] using this
  · have hopen2 : openSucceeds sc = false := by simpa using hopen
    obtain ⟨hl0, ht0, ho0⟩ := reset_log p
    obtain ⟨q, e, htry, _, hl, ht, ho⟩ := tryBlock_of_not_openSucceeds parse
      (setStatus (resetOutput p) "打开会话...") (jsTrim sc.query) sc hopen2
    refine ⟨e, ?_⟩
    have := failedWith_of_thrown parse p sc hq q e "" "" htry (hl.trans hl0) (ht.trans ht0)
      (ho.trans ho0)
    simpa [received, statusLine, hopen2, streamEvents, concatText] using this

theorem status_of_completes (parse : String → Option JVal) (p : Page) (sc : Scenario)
    (hq : jsTrim sc.query ≠ "") (h : completes sc = true) :
    (submit parse p sc).status = "完成" ∧
    (submit parse p sc).latestText = concatText (streamEvents parse (received sc)) := by
  unfold completes at h
  simp only [Bool.and_eq_true] at h
  obtain ⟨hopen, h2⟩ := h
  unfold received
  simp only [hopen, ↓reduceIte]
  cases hsend : sc.sendFetch with
  | rejected e => simp [hsend] at h2
  | aborted e => simp [hsend] at h2
  | resolved s =>
    simp only [hsend, Bool.and_eq_true] at h2
    obtain ⟨hok, h3⟩ := h2
    cases hb : s.body with
    | none => simp [hb] at h3
    | some b =>
      simp only [hb] at h3
      cases hend : b.ending with
      | rejected e => simp [hend] at h3
      | aborted e => simp [hend] at h3
      | resolved u =>
        obtain ⟨h1, _, h4, _⟩ := submit_completes parse p sc hq hopen s b hsend hok hb hend
        simp only [hok, hb, ↓reduceIte]
        exact ⟨h1, h4⟩

/-- C9 (as stated, refuted): a message response with status 500 whose body
fails in transport while `resp.text()` reads it ends the exchange in failure,
without a cancel click, and the log then holds the error line alone: neither
the status code nor any body text is in it. -/
theorem unread_error_body_counterexample :
    cancelled sendRefusedUnread = false ∧ completes sendRefusedUnread = false ∧
    (submit jsonParse loadedPage sendRefusedUnread).status = "错误" ∧
    (submit jsonParse loadedPage sendRefusedUnread).log = "Error: network error\n" ∧
    containsText (submit jsonParse loadedPage sendRefusedUnread).log "500" = false ∧
    containsText (submit jsonParse loadedPage sendRefusedUnread).log "[stream]" = false := by
  decide

/-- C9 (amended): every exchange that starts, is not cancelled and does not
run to its end shows the failure status and has exactly one error line
appended to its log, after the line with the status code and the raw body text
when the message response had a non-success status and its body text was read
(when reading it fails the error line stands alone); the running text and the
displayed output are left as they were when the failure occurred: the texts
appended for the chunks received until then, nothing when no stream was read.
The parts after the first give the error line of each kind of failure: open
request failing in transport, non-success open status, open body that does not
decode, is `null`, or has no truthy `data`; message request failing in
transport, non-success message status with the body read or not, message
response without a body, stream failing in transport.  An exchange that runs to
its end shows the completion status. -/
theorem terminal_failure_handling (parse : String → Option JVal) (p : Page) (sc : Scenario)
    (hq : jsTrim sc.query ≠ "") :
    (cancelled sc = false → completes sc = false →
      ∃ e : Thrown, FailedWith (submit parse p sc)
        (concatText (streamEvents parse (received sc)))
        (statusLine sc ++ ("Error: " ++ errorText e ++ "\n"))) ∧
    (completes sc = true → (submit parse p sc).status = "完成" ∧
      (submit parse p sc).latestText = concatText (streamEvents parse (received sc))) ∧
    (∀ e, sc.openFetch = .rejected e →
      FailedWith (submit parse p sc) "" ("Error: " ++ errorText e ++ "\n")) ∧
    (∀ r, sc.openFetch = .resolved r → isOk r.status = false →
      FailedWith (submit parse p sc) "" ("Error: open 失败: " ++ toString r.status ++ "\n")) ∧
    (∀ r e, sc.openFetch = .resolved r → isOk r.status = true → r.json = .rejected e →
      FailedWith (submit parse p sc) "" ("Error: " ++ errorText e ++ "\n")) ∧
    (∀ r, sc.openFetch = .resolved r → isOk r.status = true → r.json = .resolved JVal.null →
      FailedWith (submit parse p sc) "" ("Error: " ++ errorText nullReadError ++ "\n")) ∧
    (∀ r v, sc.openFetch = .resolved r → isOk r.status = true → r.json = .resolved v →
      v ≠ JVal.null → truthy (v.member "data") = false →
      FailedWith (submit parse p sc) "" "Error: 未返回 chat_id\n") ∧
    (openSucceeds sc = true → ∀ e, sc.sendFetch = .rejected e →
      FailedWith (submit parse p sc) "" ("Error: " ++ errorText e ++ "\n")) ∧
    (openSucceeds sc = true → ∀ s t, sc.sendFetch = .resolved s → isOk s.status = false →
      s.text = .resolved t →
      FailedWith (submit parse p sc) ""
        ("[stream] status=" ++ toString s.status ++ " body=" ++ t ++ "\n" ++
          ("Error: HTTP " ++ toString s.status ++ "\n"))) ∧
    (openSucceeds sc = true → ∀ s e, sc.sendFetch = .resolved s → isOk s.status = false →
      s.text = .rejected e →
      FailedWith (submit parse p sc) "" ("Error: " ++ errorText e ++ "\n")) ∧
    (openSucceeds sc = true → ∀ s, sc.sendFetch = .resolved s → isOk s.status = true →
      s.body = none →
      FailedWith (submit parse p sc) "" ("Error: " ++ errorText nullBodyError ++ "\n")) ∧
    (openSucceeds sc = true → ∀ s b e, sc.sendFetch = .resolved s → isOk s.status = true →
      s.body = some b → b.ending = .rejected e →
      FailedWith (submit parse p sc) (concatText (streamEvents parse b.chunks))
        ("Error: " ++ errorText e ++ "\n")) :=
  ⟨failure_of_not_completes parse p sc hq,
    status_of_completes parse p sc hq,
    fun e h => fail_open_rejected parse p sc hq e h,
    fun r h hok => fail_open_not_ok parse p sc hq r h hok,
    fun r e h hok hj => fail_json_rejected parse p sc hq r e h hok hj,
    fun r h hok hj => fail_json_null parse p sc hq r h hok hj,
    fun r v h hok hj hv hid => fail_missing_id parse p sc hq r v h hok hj hv hid,
    fun hopen e h => fail_send_rejected parse p sc hq hopen e h,
    fun hopen s t h hok ht => fail_send_not_ok parse p sc hq hopen s t h hok ht,
    fun hopen s e h hok ht => fail_send_unread parse p sc hq hopen s e h hok ht,
    fun hopen s h hok hb => fail_null_body parse p sc hq hopen s h hok hb,
    fun hopen s b e h hok hb hend =>
      fail_stream_rejected parse p sc hq hopen s b e h hok hb hend⟩

theorem terminal_failure_handling_witness :
    jsTrim sendRefused.query ≠ "" ∧ openSucceeds sendRefused = true ∧
    cancelled emptyReply = false ∧ completes emptyReply = false ∧
    FailedWith (submit jsonParse loadedPage sendRefused) ""
      ("[stream] status=" ++ toString (500 : Nat) ++ " body=" ++ "oops" ++ "\n" ++
        ("Error: HTTP " ++ toString (500 : Nat) ++ "\n")) ∧
    (∃ e : Thrown, FailedWith (submit jsonParse loadedPage emptyReply)
      (concatText (streamEvents jsonParse (received emptyReply)))
      (statusLine emptyReply ++ ("Error: " ++ errorText e ++ "\n"))) ∧
    FailedWith (submit jsonParse loadedPage (openedWith JVal.null)) ""
      ("Error: " ++ errorText nullReadError ++ "\n") ∧
    FailedWith (submit jsonParse loadedPage streamBroken)
      (concatText (streamEvents jsonParse ["data: \x7b\"content\":\"Hi\"\x7d\n\n"]))
      ("Error: " ++ errorText ⟨"TypeError", "network error"⟩ ++ "\n") ∧
    (submit jsonParse loadedPage streamBroken).latestText = "Hi" ∧
    (submit jsonParse loadedPage emptyReply).log = "Error: resp.body is null\n" ∧
    (submit jsonParse loadedPage sendRefused).log =
      "[stream] status=500 body=oops\nError: HTTP 500\n" :=
  ⟨by decide, by decide, by decide, by decide,
    (terminal_failure_handling jsonParse loadedPage sendRefused (by decide)).2.2.2.2.2.2.2.2.1
      (by decide) ⟨500, .resolved "oops", some ⟨[], .resolved ()⟩⟩ "oops" rfl (by decide) rfl,
    (terminal_failure_handling jsonParse loadedPage emptyReply (by decide)).1
      (by decide) (by decide),
    (terminal_failure_handling jsonParse loadedPage (openedWith JVal.null)
      (by decide)).2.2.2.2.2.1 ⟨200, .resolved JVal.null⟩ rfl (by decide) rfl,
    (terminal_failure_handling jsonParse loadedPage streamBroken
      (by decide)).2.2.2.2.2.2.2.2.2.2.2
      (by decide)
      ⟨200, .resolved "",
        some ⟨["data: \x7b\"content\":\"Hi\"\x7d\n\n"], .rejected ⟨"TypeError", "network error"⟩⟩⟩
      ⟨["data: \x7b\"content\":\"Hi\"\x7d\n\n"], .rejected ⟨"TypeError", "network error"⟩⟩
      ⟨"TypeError", "network error"⟩ rfl (by decide) rfl rfl,
    by decide, by decide, by decide⟩

end Crawler
